import Mathlib

/-!
Verification development for the quiz-chain solver (`main.py`).

The Python source is shallowly embedded: pure text transforms become Lean
functions on `List Char` / `String`, the stateful chain loop becomes explicit
state passing over a trace of per-iteration environments, fallible code
returns `Option` / explicit error values, and IEEE floating point numbers are
modelled as exact rationals (`ℚ`) — on the decimal literals appearing here no
rounding occurs, so the modelled comparisons agree with the Python ones.
-/

namespace QuizSolver

/-- Python whitespace (`str.isspace` / regex `\s` for `str` patterns):
ASCII space, tab, LF, VT, FF, CR, the C1 separators 0x1c–0x1f, NEL (0x85),
NBSP, and the Unicode space separators. -/
def isPySpace (c : Char) : Bool :=
  c.toNat = 32 || c.toNat = 9 || c.toNat = 10 || c.toNat = 11 || c.toNat = 12 ||
  c.toNat = 13 || (28 ≤ c.toNat && c.toNat ≤ 31) || c.toNat = 133 ||
  c.toNat = 160 || c.toNat = 5760 || (8192 ≤ c.toNat && c.toNat ≤ 8202) ||
  c.toNat = 8232 || c.toNat = 8233 || c.toNat = 8239 || c.toNat = 8287 ||
  c.toNat = 12288

/-- `re.sub(r"\s+", " ", s)`: every maximal run of whitespace becomes a
single ASCII space. -/
def wsCollapse : List Char → List Char
  | [] => []
  | [c] => if isPySpace c then [' '] else [c]
  | c :: d :: t =>
    if isPySpace c then
      if isPySpace d then wsCollapse (d :: t)
      else ' ' :: wsCollapse (d :: t)
    else c :: wsCollapse (d :: t)

/-- Removes the maximal all-whitespace suffix (the trailing half of
Python's `str.strip()`). -/
def wsDropTrailing : List Char → List Char
  | [] => []
  | c :: cs =>
    match wsDropTrailing cs with
    | [] => if isPySpace c then [] else [c]
    | r => c :: r

/-- Python `str.strip()`: drop leading and trailing whitespace. -/
def pyStripList (l : List Char) : List Char :=
  wsDropTrailing (l.dropWhile isPySpace)

/-- `normalize_ws` from `main.py`:
`re.sub(r"\s+", " ", s or "").strip()`. -/
def normalizeWsList (l : List Char) : List Char :=
  pyStripList (wsCollapse l)

/-- `normalize_ws` on `String`. -/
def normalizeWs (s : String) : String :=
  String.mk (normalizeWsList s.data)

/-- The character is a legal survivor of collapsing next to `next`:
a whitespace char must be the single space and must not be followed by
further whitespace. -/
def wsPairOk (c : Char) (next : Option Char) : Bool :=
  !isPySpace c ||
    (c == ' ' && (match next with | some d => !isPySpace d | none => true))

/-- Every whitespace character is a single `' '` not followed by whitespace. -/
def wsOk : List Char → Bool
  | [] => true
  | c :: t => wsPairOk c t.head? && wsOk t

/-- The backquote character (used by the `atob` obfuscation convention). -/
def bqChar : Char := Char.ofNat 96

/-- The newline character. -/
def nlChar : Char := Char.ofNat 10

/-- ASCII lower-case fold — the case folding `re.IGNORECASE` performs on the
ASCII pattern literals of `main.py`. -/
def lcAscii (c : Char) : Char := c.toLower

/-- Decode-table value of a base64 alphabet character
(`binascii`'s `table_a2b_base64`). -/
def b64Val (c : Char) : Option ℕ :=
  let n := c.toNat
  if 65 ≤ n ∧ n ≤ 90 then some (n - 65)
  else if 97 ≤ n ∧ n ≤ 122 then some (n - 97 + 26)
  else if 48 ≤ n ∧ n ≤ 57 then some (n - 48 + 52)
  else if n = 43 then some 62
  else if n = 47 then some 63
  else none

/-- CPython `binascii.a2b_base64` in non-strict mode (the code path of
`base64.b64decode(s)`): characters outside the alphabet are skipped, a pad
`=` is ignored while fewer than two quad characters are pending and finishes
the decode once the quad is completable, and a leftover quad at end of input
is an error (`none`).  State: `qp` = position in the current quad, `left` =
pending bits, `pads` = consecutive pad count. -/
def a2bBase64 : List Char → ℕ → ℕ → ℕ → Option (List ℕ)
  | [], qp, _, _ => if qp = 0 then some [] else none
  | c :: cs, qp, left, pads =>
    if c.toNat = 61 then
      if 2 ≤ qp ∧ 4 ≤ qp + (pads + 1) then some []
      else a2bBase64 cs qp left (if 2 ≤ qp then pads + 1 else pads)
    else
      match b64Val c with
      | none => a2bBase64 cs qp left pads
      | some v =>
        match qp with
        | 0 => a2bBase64 cs 1 v 0
        | 1 => (a2bBase64 cs 2 (v % 16) 0).map (fun r => (left * 4 + v / 16) :: r)
        | 2 => (a2bBase64 cs 3 (v % 4) 0).map (fun r => (left * 16 + v / 4) :: r)
        | _ => (a2bBase64 cs 0 0 0).map (fun r => (left * 64 + v) :: r)

/-- `base64.b64decode` applied to a `str`: the argument is first
ASCII-encoded (any non-ASCII character is an error), then decoded in
non-strict mode.  `none` models the raised `binascii.Error`/`ValueError`. -/
def b64decodePy (l : List Char) : Option (List ℕ) :=
  if l.all (fun c => c.toNat ≤ 127) then a2bBase64 l 0 0 0 else none

/-- A UTF-8 continuation byte. -/
def isUtf8Cont (b : ℕ) : Bool := decide (128 ≤ b ∧ b ≤ 191)

/-- Valid first continuation byte after a three-byte starter (excludes
overlong encodings and surrogates, as CPython's strict UTF-8 decoder does). -/
def utf8Cont1Ok3 (b b2 : ℕ) : Bool :=
  if b = 224 then decide (160 ≤ b2 ∧ b2 ≤ 191)
  else if b = 237 then decide (128 ≤ b2 ∧ b2 ≤ 159)
  else isUtf8Cont b2

/-- Valid first continuation byte after a four-byte starter. -/
def utf8Cont1Ok4 (b b2 : ℕ) : Bool :=
  if b = 240 then decide (144 ≤ b2 ∧ b2 ≤ 191)
  else if b = 244 then decide (128 ≤ b2 ∧ b2 ≤ 143)
  else isUtf8Cont b2

/-- `bytes.decode("utf-8", errors="ignore")`: decode UTF-8, skipping the
bytes of any invalid sequence (the starter plus the valid continuation bytes
before the offending byte, as CPython's `ignore` handler does). -/
def utf8Ignore : List ℕ → List Char
  | [] => []
  | b :: bs =>
    if b < 128 then Char.ofNat b :: utf8Ignore bs
    else if b < 194 then utf8Ignore bs
    else if b ≤ 223 then
      match bs with
      | [] => []
      | b2 :: r2 =>
        if isUtf8Cont b2 then
          Char.ofNat ((b - 192) * 64 + (b2 - 128)) :: utf8Ignore r2
        else utf8Ignore (b2 :: r2)
    else if b ≤ 239 then
      match bs with
      | [] => []
      | b2 :: r2 =>
        if utf8Cont1Ok3 b b2 then
          match r2 with
          | [] => []
          | b3 :: r3 =>
            if isUtf8Cont b3 then
              Char.ofNat ((b - 224) * 4096 + (b2 - 128) * 64 + (b3 - 128)) ::
                utf8Ignore r3
            else utf8Ignore (b3 :: r3)
        else utf8Ignore (b2 :: r2)
    else if b ≤ 244 then
      match bs with
      | [] => []
      | b2 :: r2 =>
        if utf8Cont1Ok4 b b2 then
          match r2 with
          | [] => []
          | b3 :: r3 =>
            if isUtf8Cont b3 then
              match r3 with
              | [] => []
              | b4 :: r4 =>
                if isUtf8Cont b4 then
                  Char.ofNat ((b - 240) * 262144 + (b2 - 128) * 4096 +
                      (b3 - 128) * 64 + (b4 - 128)) :: utf8Ignore r4
                else utf8Ignore (b4 :: r4)
            else utf8Ignore (b3 :: r3)
        else utf8Ignore (b2 :: r2)
    else utf8Ignore bs

/-- Continuation of the `atob` regex after the literal head `atob(` and the
opening backquote: a nonempty backquote-free payload (group 1), the closing
backquote and the closing parenthesis.  Returns the payload and the full
matched length (the 6 head characters plus payload plus 2). -/
def afterAtobOpen (rest : List Char) : Option (String × ℕ) :=
  match rest.dropWhile (fun c => c != bqChar) with
  | u :: v :: _ =>
    if rest.takeWhile (fun c => c != bqChar) ≠ [] ∧ u = bqChar ∧ v = ')' then
      some (String.mk (rest.takeWhile (fun c => c != bqChar)),
        8 + (rest.takeWhile (fun c => c != bqChar)).length)
    else none
  | _ => none

/-- Match of the regex `atob\(`([^`]+)`\)` (IGNORECASE) anchored at the head
of `l`: returns the captured payload (group 1) and the matched length. -/
def matchAtobHere (l : List Char) : Option (String × ℕ) :=
  match l with
  | a :: t :: o :: b :: par :: q :: rest =>
    if lcAscii a = 'a' ∧ lcAscii t = 't' ∧ lcAscii o = 'o' ∧ lcAscii b = 'b' ∧
        par = '(' ∧ q = bqChar then
      afterAtobOpen rest
    else none
  | _ => none

/-- The replacement function `_rep` inside `try_decode_base64_blocks`:
strip newlines from the payload, base64-decode it and UTF-8-decode the
result ignoring errors; on any decoding error keep the matched text. -/
def repAtob (matched payload : String) : String :=
  match b64decodePy (payload.data.filter (fun c => c != nlChar)) with
  | some bs => String.mk (utf8Ignore bs)
  | none => matched

/-- Fuelled scanner of `BASE64_INNER_HTML_RE.sub(_rep, html)`: at each
position try the anchored match; on success emit the replacement and resume
after the match (non-overlapping), otherwise keep the character. -/
def scanB64Fuel : ℕ → List Char → List Char
  | 0, l => l
  | _ + 1, [] => []
  | fuel + 1, c :: cs =>
    match matchAtobHere (c :: cs) with
    | some (p, n) =>
      (repAtob (String.mk ((c :: cs).take n)) p).data ++
        scanB64Fuel fuel ((c :: cs).drop n)
    | none => c :: scanB64Fuel fuel cs

/-- `try_decode_base64_blocks` from `main.py`.  Total — the Python function
never throws (decode failures are caught per occurrence). -/
def tryDecodeB64Blocks (s : String) : String :=
  String.mk (scanB64Fuel s.data.length s.data)

/-- Whether any position of `l` starts an `atob` obfuscation match. -/
def hasAtobMatch : List Char → Bool
  | [] => false
  | c :: cs => (matchAtobHere (c :: cs)).isSome || hasAtobMatch cs

/-- The double-quote character. -/
def dqChar : Char := Char.ofNat 34

/-- The single-quote character. -/
def sqChar : Char := Char.ofNat 39

/-- The opening-brace character. -/
def lbChar : Char := Char.ofNat 123

/-- The closing-brace character. -/
def rbChar : Char := Char.ofNat 125

/-- The backslash character. -/
def bslChar : Char := Char.ofNat 92

/-- Case-insensitive prefix test (ASCII fold on both sides). -/
def ciIsPrefix : List Char → List Char → Bool
  | [], _ => true
  | _ :: _, [] => false
  | p :: ps, c :: cs => (lcAscii c == lcAscii p) && ciIsPrefix ps cs

/-- Case-insensitive literal match: on success return the remainder. -/
def matchCiRest (pat l : List Char) : Option (List Char) :=
  if ciIsPrefix pat l then some (l.drop pat.length) else none

/-- Case-sensitive literal match: on success return the remainder. -/
def matchLit (pat l : List Char) : Option (List Char) :=
  if pat.isPrefixOf l then some (l.drop pat.length) else none

/-- Greedy `\s+`: requires at least one whitespace character and consumes
the whole run (no later pattern part of `main.py` can match whitespace, so
no backtracking is needed). -/
def matchWs1 (l : List Char) : Option (List Char) :=
  match l with
  | c :: cs => if isPySpace c then some (cs.dropWhile isPySpace) else none
  | [] => none

/-- `re.search(pat, s, re.IGNORECASE)` for a plain-literal pattern:
case-insensitive substring containment. -/
def containsCI (pat : List Char) : List Char → Bool
  | [] => ciIsPrefix pat []
  | c :: hs => ciIsPrefix pat (c :: hs) || containsCI pat hs

/-- Case-sensitive substring containment (`in` on already-lowered text). -/
def containsSub (pat : List Char) : List Char → Bool
  | [] => pat.isPrefixOf []
  | c :: hs => pat.isPrefixOf (c :: hs) || containsSub pat hs

/-- Python `\w` on the ASCII range: letters, digits, underscore (the
word-boundary checks of `main.py` only ever look at ASCII markup). -/
def isWordChar (c : Char) : Bool :=
  decide ((65 ≤ c.toNat ∧ c.toNat ≤ 90) ∨ (97 ≤ c.toNat ∧ c.toNat ≤ 122) ∨
    (48 ≤ c.toNat ∧ c.toNat ≤ 57) ∨ c.toNat = 95)

/-- A character allowed inside a URL by the class `[^\s"'<>]`. -/
def isUrlChar (c : Char) : Bool :=
  !isPySpace c && c != dqChar && c != sqChar && c != '<' && c != '>'

/-- Greedy `https?://` (IGNORECASE): returns the consumed original
characters and the remainder.  The optional `s` is tried first and given
back if `://` then fails, as the regex engine backtracks. -/
def matchScheme (l : List Char) : Option (List Char × List Char) :=
  match matchCiRest (String.data ("http")) l with
  | none => none
  | some l1 =>
    match l1 with
    | c :: cs =>
      if lcAscii c == 's' then
        match matchCiRest (String.data ("://")) cs with
        | some l2 => some (l.take 8, l2)
        | none =>
          (matchCiRest (String.data ("://")) l1).map
            (fun r => (l.take 7, r))
      else
        (matchCiRest (String.data ("://")) l1).map (fun r => (l.take 7, r))
    | [] => none

/-- A match of `(?:submit\s+to|POST\s+to)` at the head: branch one then
branch two, each a case-insensitive keyword, `\s+`, and `to`. -/
def matchSubmitKw (kw : List Char) (l : List Char) : Option (List Char) :=
  match matchCiRest kw l with
  | none => none
  | some l1 =>
    match matchWs1 l1 with
    | none => none
    | some l2 => matchCiRest (String.data ("to")) l2

/-- `SUBMIT_URL_RE` matched at the head of `l`: returns group 1
(the URL, scheme included, in its original spelling). -/
def submitUrlHere (l : List Char) : Option (List Char) :=
  match (match matchSubmitKw (String.data ("submit")) l with
         | some r => some r
         | none => matchSubmitKw (String.data ("post")) l) with
  | none => none
  | some l3 =>
    match matchWs1 l3 with
    | none => none
    | some l4 =>
      match matchScheme l4 with
      | none => none
      | some (con, l5) =>
        match l5.takeWhile isUrlChar with
        | [] => none
        | run => some (con ++ run)

/-- `extract_submit_url` from `main.py`: leftmost search of
`SUBMIT_URL_RE` over the text; `none` models Python's `None`. -/
def extractSubmitUrlList : List Char → Option (List Char)
  | [] => none
  | c :: cs =>
    match submitUrlHere (c :: cs) with
    | some g => some g
    | none => extractSubmitUrlList cs

/-- `extract_submit_url` on `String`. -/
def extractSubmitUrl (s : String) : Option String :=
  (extractSubmitUrlList s.data).map String.mk

/-- A match of `[^>]+>` right after a literal `<`: a nonempty run of
non-`>` characters closed by `>`; returns the remainder. -/
def tagMatchHere (cs : List Char) : Option (List Char) :=
  if cs.takeWhile (fun x => x != '>') = [] then none
  else
    match cs.dropWhile (fun x => x != '>') with
    | g :: rest => if g = '>' then some rest else none
    | [] => none

/-- `re.sub(r"<[^>]+>", " ", s)`: every tag-like region becomes a single
space (fuelled scanner; one unit of fuel per position). -/
def stripTagsFuel : ℕ → List Char → List Char
  | 0, l => l
  | _ + 1, [] => []
  | f + 1, c :: cs =>
    if c = '<' then
      match tagMatchHere cs with
      | some rest => ' ' :: stripTagsFuel f rest
      | none => c :: stripTagsFuel f cs
    else c :: stripTagsFuel f cs

/-- `re.sub(r"<[^>]+>", " ", s)` on `String`. -/
def stripTags (s : String) : String :=
  String.mk (stripTagsFuel s.data.length s.data)

/-- A match of `<tr\b` (IGNORECASE) at the head: literal `<tr` followed by
a word boundary (next character is not a word character, or end). -/
def trHere : List Char → Bool
  | a :: b :: r :: rest =>
    a = '<' && lcAscii b == 't' && lcAscii r == 'r' &&
      (match rest with
       | [] => true
       | x :: _ => !isWordChar x)
  | _ => false

/-- `len(re.findall(r"<tr\b", html, re.IGNORECASE))`: count of row
markers, scanning non-overlapping matches left to right. -/
def countTrFuel : ℕ → List Char → ℕ
  | 0, _ => 0
  | _ + 1, [] => 0
  | f + 1, c :: cs =>
    if trHere (c :: cs) then 1 + countTrFuel f ((c :: cs).drop 3)
    else countTrFuel f cs

/-- Row-marker count on `String`. -/
def countTr (s : String) : ℕ := countTrFuel s.data.length s.data

/-- Numeric value of a run of decimal digits. -/
def digitsToNat (ds : List Char) : ℕ :=
  ds.foldl (fun acc c => acc * 10 + (c.toNat - 48)) 0

/-- Exact decimal number with value `mant / 10 ^ exp` — the shallow model
of the Python floats occurring in `main.py`.  Every float there originates
from a decimal literal, and the arithmetic performed on them (parsing,
summation, the `1e-9` integrality test) is exact on such decimals, so the
modelled comparisons agree with the Python ones.  `toRat` gives the
mathematical value. -/
structure Dec where
  mant : ℤ
  exp : ℕ
deriving DecidableEq

namespace Dec

/-- Embed a natural number. -/
def ofNat (n : ℕ) : Dec := ⟨n, 0⟩

/-- Embed an integer. -/
def ofInt (z : ℤ) : Dec := ⟨z, 0⟩

/-- Exact addition (common denominator `10 ^ max`). -/
def add (a b : Dec) : Dec :=
  ⟨a.mant * 10 ^ (max a.exp b.exp - a.exp) +
     b.mant * 10 ^ (max a.exp b.exp - b.exp), max a.exp b.exp⟩

/-- Negation. -/
def neg (a : Dec) : Dec := ⟨-a.mant, a.exp⟩

/-- Exact subtraction. -/
def sub (a b : Dec) : Dec := add a (neg b)

/-- Absolute value (Python `abs`). -/
def dabs (a : Dec) : Dec := ⟨|a.mant|, a.exp⟩

/-- Value comparison `a < b` by cross multiplication. -/
def blt (a b : Dec) : Bool :=
  decide (a.mant * 10 ^ b.exp < b.mant * 10 ^ a.exp)

/-- Value comparison `a ≤ b` by cross multiplication. -/
def ble (a b : Dec) : Bool :=
  decide (a.mant * 10 ^ b.exp ≤ b.mant * 10 ^ a.exp)

/-- Python `int()` on a float: truncation toward zero. -/
def truncZ (a : Dec) : ℤ :=
  if 0 ≤ a.mant then ((a.mant.toNat / 10 ^ a.exp : ℕ) : ℤ)
  else -(((-a.mant).toNat / 10 ^ a.exp : ℕ) : ℤ)

/-- Multiply by `10 ^ k` (scientific-notation exponents). -/
def scale (a : Dec) (k : ℤ) : Dec :=
  if 0 ≤ k then ⟨a.mant * 10 ^ k.toNat, a.exp⟩
  else ⟨a.mant, a.exp + (-k).toNat⟩

/-- The mathematical value. -/
def toRat (a : Dec) : ℚ := (a.mant : ℚ) / 10 ^ a.exp

/-- `float(sum(vals))`: left fold starting at `0`. -/
def dsum (l : List Dec) : Dec := l.foldl add (ofNat 0)

end Dec

/-- Python's dynamically typed numeric answer: `int` or `float`. -/
inductive PyNum
  | pint (n : ℤ)
  | pfloat (d : Dec)
deriving DecidableEq

/-- `int(s) if abs(s - int(s)) < 1e-9 else s` — the integer/float
normalization applied to every computed sum in `main.py`. -/
def pyIntFloat (d : Dec) : PyNum :=
  if Dec.blt (Dec.dabs (Dec.sub d (Dec.ofInt (Dec.truncZ d)))) ⟨1, 9⟩ then
    .pint (Dec.truncZ d)
  else .pfloat d

/-- A match of `-?\d+(?:\.\d+)?` at the head of `l`: the exact decimal
value of the matched literal and the matched length. -/
def numHere (l : List Char) : Option (Dec × ℕ) :=
  let sgn : Bool × ℕ × List Char :=
    match l with
    | c :: cs => if c = '-' ∧ cs.takeWhile Char.isDigit ≠ [] then (true, 1, cs)
                 else (false, 0, l)
    | [] => (false, 0, l)
  match sgn with
  | (neg, off, l1) =>
    match l1.takeWhile Char.isDigit with
    | [] => none
    | ds =>
      let fs : List Char :=
        match l1.dropWhile Char.isDigit with
        | d :: r2 => if d = '.' then r2.takeWhile Char.isDigit else []
        | [] => []
      let m : ℤ := (digitsToNat (ds ++ fs) : ℤ)
      some (⟨if neg then -m else m, fs.length⟩,
        off + ds.length + (if fs.isEmpty then 0 else 1 + fs.length))

/-- `re.findall(r"-?\d+(?:\.\d+)?", s)`: all numeric substrings, scanned
left to right without overlap. -/
def findNumsFuel : ℕ → List Char → List Dec
  | 0, _ => []
  | _ + 1, [] => []
  | f + 1, c :: cs =>
    match numHere (c :: cs) with
    | some (q, n) => q :: findNumsFuel f ((c :: cs).drop n)
    | none => findNumsFuel f cs

/-- All numeric substrings of a character list. -/
def findNums (l : List Char) : List Dec := findNumsFuel l.length l

/-- `re.search(r"-?\d+(?:\.\d+)?", s)`: the first numeric substring. -/
def findFirstNum : List Char → Option Dec
  | [] => none
  | c :: cs =>
    match numHere (c :: cs) with
    | some (q, _) => some q
    | none => findFirstNum cs

/-- Suffix alternative `\.pdf` (IGNORECASE): matched length on success. -/
def pdfSuffix (l : List Char) : Option ℕ :=
  if ciIsPrefix (String.data (".pdf")) l then some 4 else none

/-- Suffix alternative `\.(?:csv|json|xlsx?)` (IGNORECASE), tried in the
regex's order; for `xlsx?` the optional `x` is greedy. -/
def dataSuffix (l : List Char) : Option ℕ :=
  if ciIsPrefix (String.data (".csv")) l then some 4
  else if ciIsPrefix (String.data (".json")) l then some 5
  else if ciIsPrefix (String.data (".xls")) l then
    (match l.drop 4 with
     | c :: _ => if lcAscii c == 'x' then some 5 else some 4
     | [] => some 4)
  else none

/-- Greedy backtracking of the class `[^\s"'<>]+` before a suffix: try the
largest split `k` first (the class must consume at least one character);
returns the split and the suffix's matched length. -/
def bestSuffixSplit (run : List Char) (check : List Char → Option ℕ) :
    ℕ → Option (ℕ × ℕ)
  | 0 => none
  | j + 1 =>
    match check (run.drop (j + 1)) with
    | some e => some (j + 1, e)
    | none => bestSuffixSplit run check j

/-- A link match (`https?://[^\s"'<>]+\.EXT`) at the head of `l`: the
matched text (group 1 = the whole match) and its length. -/
def linkHere (check : List Char → Option ℕ) (l : List Char) :
    Option (List Char × ℕ) :=
  match matchScheme l with
  | none => none
  | some (con, l1) =>
    let run := l1.takeWhile isUrlChar
    match bestSuffixSplit run check run.length with
    | none => none
    | some (k, e) => some (con ++ run.take (k + e), con.length + k + e)

/-- `re.findall` of a link pattern: non-overlapping left-to-right scan. -/
def findLinksFuel (check : List Char → Option ℕ) : ℕ → List Char →
    List String
  | 0, _ => []
  | _ + 1, [] => []
  | f + 1, c :: cs =>
    match linkHere check (c :: cs) with
    | some (g, n) => String.mk g :: findLinksFuel check f ((c :: cs).drop n)
    | none => findLinksFuel check f cs

/-- `re.findall(r"(https?://[^\s\"'<>]+\.pdf)", s, re.IGNORECASE)`. -/
def findPdfLinks (s : String) : List String :=
  findLinksFuel pdfSuffix s.data.length s.data

/-- `re.findall(r"(https?://[^\s\"'<>]+\.(?:csv|json|xlsx?))", s,
re.IGNORECASE)`. -/
def findDataLinks (s : String) : List String :=
  findLinksFuel dataSuffix s.data.length s.data

/-- Python `str.lower()` (ASCII fold; the compared names in `main.py` are
ASCII). -/
def pyLower (s : String) : String := String.mk (s.data.map lcAscii)

/-- Python `str.strip()`. -/
def pyStrip (s : String) : String := String.mk (pyStripList s.data)

/-- A line-break character for `str.splitlines`. -/
def isLineBreak (c : Char) : Bool :=
  c.toNat = 10 || c.toNat = 13 || c.toNat = 11 || c.toNat = 12 ||
  c.toNat = 28 || c.toNat = 29 || c.toNat = 30 || c.toNat = 133 ||
  c.toNat = 8232 || c.toNat = 8233

/-- Worker for `str.splitlines` (fuelled; one unit per character): `acc`
is the current line reversed; `\r\n` counts as a single break and a
terminal break adds no empty line. -/
def splitLinesFuel : ℕ → List Char → List Char → List (List Char)
  | 0, acc, _ => [acc.reverse]
  | _ + 1, acc, [] => [acc.reverse]
  | f + 1, acc, c :: cs =>
    if c.toNat = 13 then
      match cs with
      | d :: cs2 =>
        if d.toNat = 10 then
          match cs2 with
          | [] => [acc.reverse]
          | _ => acc.reverse :: splitLinesFuel f [] cs2
        else acc.reverse :: splitLinesFuel f [] cs
      | [] => [acc.reverse]
    else if isLineBreak c then
      match cs with
      | [] => [acc.reverse]
      | _ => acc.reverse :: splitLinesFuel f [] cs
    else splitLinesFuel f (c :: acc) cs

/-- Python `str.splitlines()`. -/
def splitLines (l : List Char) : List (List Char) :=
  match l with
  | [] => []
  | _ => splitLinesFuel l.length [] l

/-- A page as extracted by `pdfplumber`: its tables (rows of optional
cells, the first row being the header) and its plain text.  The `pdfplumber`
library itself is an external collaborator; this structure is its output
at the interface `sum_value_column_pdf_pdfplumber` consumes. -/
structure PdfPage where
  tables : List (List (List (Option String)))
  text : String

/-- `pdf.pages`. -/
abbrev Pdf := List PdfPage

/-- One data cell of the matched column:
`(row[idx] or "").replace(",", "").strip()` then the first numeric
substring, if any. -/
def cellNum (cell : Option String) : Option Dec :=
  findFirstNum (pyStripList ((cell.getD "").data.filter (fun c => c != ',')))

/-- `[normalize_ws(h or "").lower() for h in (tbl[0] or [])]`. -/
def headerNames (hrow : List (Option String)) : List String :=
  hrow.map (fun c => pyLower (normalizeWs (c.getD "")))

/-- `headers.index(x)` — index of the first occurrence. -/
def firstIdx (target : String) : List String → ℕ
  | [] => 0
  | h :: t => if h = target then 0 else 1 + firstIdx target t

/-- The table loop of `sum_value_column_pdf_pdfplumber`: find the first
table whose header row contains the column (case-insensitive, on
normalized header text) and sum its numeric cells.  `none` models the
`IndexError` on an empty table (`tbl[0]`), which the surrounding
`except` turns into an overall `None`; `some none` means no table
matched. -/
def sumTables (col : String) :
    List (List (List (Option String))) → Option (Option Dec)
  | [] => some none
  | tbl :: more =>
    match tbl with
    | [] => none
    | hrow :: drows =>
      let headers := headerNames hrow
      if pyLower col ∈ headers then
        some (some (Dec.dsum (drows.filterMap
          (fun row => (row.get? (firstIdx (pyLower col) headers)).bind
            cellNum))))
      else sumTables col more

/-- The text fallback of `sum_value_column_pdf_pdfplumber`: every line
containing the column name (case-insensitive) contributes all numbers on
that line (thousands separators stripped); `none` when no number was
found on any matching line. -/
def sumTextLines (col : String) (txt : String) : Option Dec :=
  let nums := (splitLines txt.data).foldr
    (fun line acc =>
      if containsSub (pyLower col).data (line.map lcAscii) then
        findNums (line.filter (fun c => c != ',')) ++ acc
      else acc) []
  match nums with
  | [] => none
  | _ => some (Dec.dsum nums)

/-- `sum_value_column_pdf_pdfplumber` from `main.py`.  The `pdf` argument
is the parse result of the downloaded bytes: `none` models both a missing
`pdfplumber` and an exception while opening or reading the document
(swallowed, returning `None`). -/
def sumValueColumnPdf (pdf : Option Pdf) (col : String) (pageNo : ℕ) :
    Option PyNum :=
  match pdf with
  | none => none
  | some pages =>
    if pageNo = 0 ∨ pages.length < pageNo then none
    else
      match pages.get? (pageNo - 1) with
      | none => none
      | some page =>
        match sumTables col page.tables with
        | none => none
        | some (some s) => some (pyIntFloat s)
        | some none =>
          match sumTextLines col page.text with
          | some t => some (pyIntFloat t)
          | none => none

/-- A parsed tabular file as produced by `pandas` (`read_csv`,
`json_normalize` or `read_excel`) — an external collaborator; cells are
kept as their string spellings. -/
structure Table where
  cols : List String
  rows : List (List String)

/-- `pd.to_numeric(cell, errors="coerce")` on one cell: a full numeric
literal (optional sign, digits with optional decimal part, optional
exponent) parses exactly; anything else is `NaN` (`none`). -/
def pdParseNum (s : String) : Option Dec :=
  let l0 := pyStripList s.data
  let sg : Bool × List Char :=
    match l0 with
    | c :: cs =>
      if c = '-' then (true, cs)
      else if c = '+' then (false, cs)
      else (false, l0)
    | [] => (false, l0)
  match sg with
  | (neg, l1) =>
    let ds := l1.takeWhile Char.isDigit
    let r1 := l1.dropWhile Char.isDigit
    let fr : List Char × List Char :=
      match r1 with
      | d :: rr =>
        if d = '.' then (rr.takeWhile Char.isDigit, rr.dropWhile Char.isDigit)
        else ([], r1)
      | [] => ([], r1)
    match fr with
    | (fs, r2) =>
      if ds.isEmpty ∧ fs.isEmpty then none
      else
        let base : Dec :=
          ⟨(if neg then -1 else 1) * (digitsToNat (ds ++ fs) : ℤ), fs.length⟩
        match r2 with
        | [] => some base
        | e :: r3 =>
          if e = 'e' ∨ e = 'E' then
            let esg : Bool × List Char :=
              match r3 with
              | c :: cs =>
                if c = '-' then (true, cs)
                else if c = '+' then (false, cs)
                else (false, r3)
              | [] => (false, r3)
            match esg with
            | (eneg, r4) =>
              match r4.takeWhile Char.isDigit with
              | [] => none
              | es =>
                if (r4.dropWhile Char.isDigit).isEmpty then
                  some (base.scale (if eneg then -(digitsToNat es : ℤ)
                    else (digitsToNat es : ℤ)))
                else none
          else none

/-- `cols_lower = {c.lower(): c for c in df.columns}` followed by selecting
`cols_lower["value"]`: the dict keeps the last binding, so this is the
index of the last column whose lowercase name is `value`. -/
def lastValueIdx (cols : List String) : Option ℕ :=
  (List.range cols.length).foldl
    (fun acc i => if pyLower (cols.getD i "") = "value" then some i
                  else acc) none

/-- The CSV/JSON/XLSX value-column heuristic body (`main.py` lines
177–181): locate the `value` column case-insensitively; if present, coerce
each cell with `to_numeric(errors="coerce").fillna(0)` and sum, applying
the integer/float normalization; if absent the answer stays `None`. -/
def tabularValueSum (t : Table) : Option PyNum :=
  match lastValueIdx t.cols with
  | none => none
  | some idx =>
    some (pyIntFloat (Dec.dsum (t.rows.map
      (fun row => ((row.get? idx).bind pdParseNum).getD (Dec.ofNat 0)))))

/-- A Python JSON value (`json.loads` result).  Numbers are exact decimals
(see `Dec`); the Python extensions `NaN`/`Infinity` do not occur in the
modelled pages and are not parsed. -/
inductive JVal
  | jnull
  | jbool (b : Bool)
  | jnum (d : Dec)
  | jstr (s : String)
  | jarr (xs : List JVal)
  | jobj (kvs : List (String × JVal))

/-- JSON whitespace (the only characters `json.loads` skips). -/
def jWs (c : Char) : Bool :=
  c.toNat = 32 || c.toNat = 9 || c.toNat = 10 || c.toNat = 13

/-- Skip JSON whitespace. -/
def skipJWs (l : List Char) : List Char := l.dropWhile jWs

/-- Hex digit value. -/
def hexVal (c : Char) : Option ℕ :=
  if 48 ≤ c.toNat ∧ c.toNat ≤ 57 then some (c.toNat - 48)
  else if 97 ≤ c.toNat ∧ c.toNat ≤ 102 then some (c.toNat - 97 + 10)
  else if 65 ≤ c.toNat ∧ c.toNat ≤ 70 then some (c.toNat - 65 + 10)
  else none

/-- Single-character JSON escapes. -/
def jEsc (e : Char) : Option Char :=
  if e = dqChar then some dqChar
  else if e = bslChar then some bslChar
  else if e = '/' then some '/'
  else if e = 'b' then some (Char.ofNat 8)
  else if e = 'f' then some (Char.ofNat 12)
  else if e = 'n' then some (Char.ofNat 10)
  else if e = 'r' then some (Char.ofNat 13)
  else if e = 't' then some (Char.ofNat 9)
  else none

/-- JSON string body after the opening quote: content and remainder after
the closing quote.  Strict mode: raw control characters and unknown
escapes are errors; `\uXXXX` surrogate pairs are combined (a lone
surrogate, unrepresentable in a Lean `Char`, degrades to NUL). -/
def jStringRest : ℕ → List Char → Option (List Char × List Char)
  | 0, _ => none
  | _ + 1, [] => none
  | f + 1, c :: cs =>
    if c = dqChar then some ([], cs)
    else if c = bslChar then
      match cs with
      | [] => none
      | e :: cs2 =>
        match jEsc e with
        | some ch => (jStringRest f cs2).map (fun pr => (ch :: pr.1, pr.2))
        | none =>
          if e = 'u' then
            match cs2 with
            | h1 :: h2 :: h3 :: h4 :: rest2 =>
              match hexVal h1, hexVal h2, hexVal h3, hexVal h4 with
              | some a, some b, some c3, some d4 =>
                let v := ((a * 16 + b) * 16 + c3) * 16 + d4
                if 55296 ≤ v ∧ v ≤ 56319 then
                  match rest2 with
                  | s1 :: s2 :: k1 :: k2 :: k3 :: k4 :: rest3 =>
                    if s1 = bslChar ∧ s2 = 'u' then
                      match hexVal k1, hexVal k2, hexVal k3, hexVal k4 with
                      | some a2, some b2, some c4, some d5 =>
                        let w := ((a2 * 16 + b2) * 16 + c4) * 16 + d5
                        if 56320 ≤ w ∧ w ≤ 57343 then
                          (jStringRest f rest3).map (fun pr =>
                            (Char.ofNat (65536 + (v - 55296) * 1024 +
                              (w - 56320)) :: pr.1, pr.2))
                        else (jStringRest f rest2).map (fun pr =>
                          (Char.ofNat v :: pr.1, pr.2))
                      | _, _, _, _ => (jStringRest f rest2).map (fun pr =>
                          (Char.ofNat v :: pr.1, pr.2))
                    else (jStringRest f rest2).map (fun pr =>
                      (Char.ofNat v :: pr.1, pr.2))
                  | _ => (jStringRest f rest2).map (fun pr =>
                      (Char.ofNat v :: pr.1, pr.2))
                else (jStringRest f rest2).map (fun pr =>
                  (Char.ofNat v :: pr.1, pr.2))
              | _, _, _, _ => none
            | _ => none
          else none
    else if c.toNat < 32 then none
    else (jStringRest f cs).map (fun pr => (c :: pr.1, pr.2))

/-- JSON number at the head (grammar of Python's `NUMBER_RE`): optional
minus, `0` or a nonzero-led digit run, optional `.digits`, optional
exponent; unconsumable parts are left in the remainder. -/
def jNumRest (l : List Char) : Option (Dec × List Char) :=
  let sg : Bool × List Char :=
    match l with
    | c :: cs => if c = '-' then (true, cs) else (false, l)
    | [] => (false, l)
  match sg with
  | (neg, l1) =>
    match l1 with
    | [] => none
    | c :: cs =>
      if ¬ c.isDigit then none
      else
        let ds := if c = '0' then [c] else l1.takeWhile Char.isDigit
        let r1 := if c = '0' then cs else l1.dropWhile Char.isDigit
        let fr : List Char × List Char :=
          match r1 with
          | d :: rr =>
            if d = '.' ∧ rr.takeWhile Char.isDigit ≠ [] then
              (rr.takeWhile Char.isDigit, rr.dropWhile Char.isDigit)
            else ([], r1)
          | [] => ([], r1)
        match fr with
        | (fs, r2) =>
          let base : Dec :=
            ⟨(if neg then -1 else 1) * (digitsToNat (ds ++ fs) : ℤ),
              fs.length⟩
          let ex : Option (ℤ × List Char) :=
            match r2 with
            | e :: r3 =>
              if e = 'e' ∨ e = 'E' then
                match r3 with
                | s :: r4 =>
                  if s = '-' ∨ s = '+' then
                    match r4.takeWhile Char.isDigit with
                    | [] => none
                    | es => some ((if s = '-' then -(digitsToNat es : ℤ)
                        else (digitsToNat es : ℤ)), r4.dropWhile Char.isDigit)
                  else
                    match r3.takeWhile Char.isDigit with
                    | [] => none
                    | es => some ((digitsToNat es : ℤ),
                        r3.dropWhile Char.isDigit)
                | [] => none
              else none
            | [] => none
          match ex with
          | some (k, r5) => some (base.scale k, r5)
          | none => some (base, r2)

/-- Parse mode of the fuelled JSON parser. -/
inductive JMode
  | val
  | arrItems
  | objItems

/-- Intermediate result of the fuelled JSON parser. -/
inductive JRes
  | v (x : JVal)
  | items (xs : List JVal)
  | members (kvs : List (String × JVal))

/-- Recursive-descent `json.loads` core, fuelled for structural
termination (`items`/`members` parse the element lists of arrays and
objects after their first delimiter). -/
def jParse : ℕ → JMode → List Char → Option (JRes × List Char)
  | 0, _, _ => none
  | f + 1, .val, l =>
    let l1 := skipJWs l
    match l1 with
    | [] => none
    | c :: cs =>
      if c = dqChar then
        (jStringRest cs.length cs).map (fun pr => (.v (.jstr (String.mk pr.1)), pr.2))
      else if c = lbChar then
        let l2 := skipJWs cs
        match l2 with
        | d :: ds2 =>
          if d = rbChar then some (.v (.jobj []), ds2)
          else
            match jParse f .objItems l2 with
            | some (.members kvs, r) => some (.v (.jobj kvs), r)
            | _ => none
        | [] => none
      else if c = '[' then
        let l2 := skipJWs cs
        match l2 with
        | d :: ds2 =>
          if d = ']' then some (.v (.jarr []), ds2)
          else
            match jParse f .arrItems l2 with
            | some (.items xs, r) => some (.v (.jarr xs), r)
            | _ => none
        | [] => none
      else if (String.data ("true")).isPrefixOf l1 then
        some (.v (.jbool true), l1.drop 4)
      else if (String.data ("false")).isPrefixOf l1 then
        some (.v (.jbool false), l1.drop 5)
      else if (String.data ("null")).isPrefixOf l1 then
        some (.v .jnull, l1.drop 4)
      else (jNumRest l1).map (fun pr => (.v (.jnum pr.1), pr.2))
  | f + 1, .arrItems, l =>
    match jParse f .val l with
    | some (.v x, r) =>
      match skipJWs r with
      | c :: cs =>
        if c = ',' then
          match jParse f .arrItems cs with
          | some (.items xs, r2) => some (.items (x :: xs), r2)
          | _ => none
        else if c = ']' then some (.items [x], cs)
        else none
      | [] => none
    | _ => none
  | f + 1, .objItems, l =>
    match skipJWs l with
    | c :: cs =>
      if c = dqChar then
        match jStringRest cs.length cs with
        | none => none
        | some (k, r) =>
          match skipJWs r with
          | d :: ds2 =>
            if d = ':' then
              match jParse f .val ds2 with
              | some (.v x, r2) =>
                match skipJWs r2 with
                | e :: es =>
                  if e = ',' then
                    match jParse f .objItems es with
                    | some (.members kvs, r4) =>
                      some (.members ((String.mk k, x) :: kvs), r4)
                    | _ => none
                  else if e = rbChar then
                    some (.members [(String.mk k, x)], es)
                  else none
                | [] => none
              | _ => none
            else none
          | [] => none
      else none
    | [] => none

/-- `json.loads`: parse one value, allowing surrounding whitespace only. -/
def jsonLoads (s : String) : Option JVal :=
  match jParse (s.data.length * 2 + 8) .val s.data with
  | some (.v x, rest) => if skipJWs rest = [] then some x else none
  | _ => none

/-- `\s*</pre>` test used while lazily growing the JSON block. -/
def closePreAfter (cs : List Char) : Bool :=
  (String.data ("</pre>")).isPrefixOf (cs.dropWhile isPySpace)

/-- Lazy `{.*?}` body: the shortest extension whose closing brace is
followed by `\s*</pre>`; returns the content including the closing
brace. -/
def jsonBlockTail : ℕ → List Char → List Char → Option (List Char)
  | 0, _, _ => none
  | _ + 1, _, [] => none
  | f + 1, acc, c :: cs =>
    if c = rbChar ∧ closePreAfter cs then some (acc.reverse ++ [rbChar])
    else jsonBlockTail f (c :: acc) cs

/-- `JSON_BLOCK_RE` (`(?s)<pre>\s*({.*?})\s*</pre>`, case-sensitive)
anchored at the head: returns group 1. -/
def preJsonHere (l : List Char) : Option (List Char) :=
  match matchLit (String.data ("<pre>")) l with
  | none => none
  | some l1 =>
    match l1.dropWhile isPySpace with
    | c :: cs =>
      if c = lbChar then
        (jsonBlockTail cs.length [] cs).map (fun inner => lbChar :: inner)
      else none
    | [] => none

/-- Leftmost `JSON_BLOCK_RE` search. -/
def findPreJsonList : List Char → Option (List Char)
  | [] => none
  | c :: cs =>
    match preJsonHere (c :: cs) with
    | some g => some g
    | none => findPreJsonList cs

/-- `find_embedded_json_payload` from `main.py`: the first `<pre>`-fenced
JSON block, parsed; `none` when absent or malformed (the parse failure is
swallowed). -/
def findEmbeddedJsonPayload (s : String) : Option JVal :=
  match findPreJsonList s.data with
  | none => none
  | some g => jsonLoads (String.mk g)

/-- `dict.get(k)` on a parsed JSON object: later duplicate keys win, as in
`json.loads`. -/
def jGet (kvs : List (String × JVal)) (k : String) : Option JVal :=
  match kvs with
  | [] => none
  | (k2, v) :: rest =>
    match jGet rest k with
    | some r => some r
    | none => if k2 = k then some v else none

/-- Python truthiness of a JSON value (`if not submit_url`,
`if next_url`). -/
def jTruthy : JVal → Bool
  | .jnull => false
  | .jbool b => b
  | .jnum d => decide (d.mant ≠ 0)
  | .jstr s => (match s.data with | [] => false | _ => true)
  | .jarr xs => !xs.isEmpty
  | .jobj kvs => !kvs.isEmpty

/-- A character of the column-name class `[A-Za-z0-9_ -]`. -/
def isColChar (c : Char) : Bool :=
  decide ((65 ≤ c.toNat ∧ c.toNat ≤ 90) ∨ (97 ≤ c.toNat ∧ c.toNat ≤ 122) ∨
    (48 ≤ c.toNat ∧ c.toNat ≤ 57) ∨ c.toNat = 95 ∨ c = ' ' ∨ c = '-')

/-- Optional quote `['\"]?` (consuming it is forced whenever one is
present, since neither the column class nor `\s` matches a quote). -/
def quoteOpt (l : List Char) : List Char :=
  match l with
  | c :: cs => if c = sqChar ∨ c = dqChar then cs else l
  | [] => l

/-- The tail `['\"]?\s+column\s+in\s+the\s+table\s+on\s+page\s+(\d+)` of
the PDF-task regex: returns group 2 as a number. -/
def pdfTailPage (l : List Char) : Option ℕ :=
  (matchWs1 (quoteOpt l)).bind (fun l2 =>
  (matchCiRest (String.data ("column")) l2).bind (fun l3 =>
  (matchWs1 l3).bind (fun l4 =>
  (matchCiRest (String.data ("in")) l4).bind (fun l5 =>
  (matchWs1 l5).bind (fun l6 =>
  (matchCiRest (String.data ("the")) l6).bind (fun l7 =>
  (matchWs1 l7).bind (fun l8 =>
  (matchCiRest (String.data ("table")) l8).bind (fun l9 =>
  (matchWs1 l9).bind (fun l10 =>
  (matchCiRest (String.data ("on")) l10).bind (fun l11 =>
  (matchWs1 l11).bind (fun l12 =>
  (matchCiRest (String.data ("page")) l12).bind (fun l13 =>
  (matchWs1 l13).bind (fun l14 =>
  match l14.takeWhile Char.isDigit with
  | [] => none
  | ds => some (digitsToNat ds))))))))))))))

/-- Greedy backtracking of the column class `([A-Za-z0-9_ -]+)`: try the
longest split first (at least one character), as the regex engine does. -/
def pdfColSplitDesc (run rest2 : List Char) : ℕ → Option (String × ℕ)
  | 0 => none
  | j + 1 =>
    match pdfTailPage (run.drop (j + 1) ++ rest2) with
    | some pg => some (String.mk (run.take (j + 1)), pg)
    | none => pdfColSplitDesc run rest2 j

/-- The PDF-task regex
`sum of the ['\"]?([A-Za-z0-9_ -]+)['\"]?\s+column\s+in\s+the\s+table\s+on\s+page\s+(\d+)`
(IGNORECASE) anchored at the head: returns (group 1, group 2). -/
def pdfTaskHere (l : List Char) : Option (String × ℕ) :=
  match matchCiRest (String.data ("sum of the ")) l with
  | none => none
  | some l1 =>
    let l2 := quoteOpt l1
    match l2.takeWhile isColChar with
    | [] => none
    | run => pdfColSplitDesc run (l2.dropWhile isColChar) run.length

/-- Leftmost search of the PDF-task regex. -/
def pdfTaskMatchList : List Char → Option (String × ℕ)
  | [] => none
  | c :: cs =>
    match pdfTaskHere (c :: cs) with
    | some r => some r
    | none => pdfTaskMatchList cs

/-- Leftmost search of the PDF-task regex, on `String`. -/
def pdfTaskMatch (s : String) : Option (String × ℕ) :=
  pdfTaskMatchList s.data

/-- Configuration fixed for one chain invocation: the absolute deadline,
computed once in `quiz_endpoint` (`started + QUIZ_TOTAL_SECONDS`) before the
first fetch.  It is a plain immutable parameter: the model has no operation
that changes it, reflecting that the code never extends it. -/
structure ChainCfg where
  deadline : Dec

/-- The mutable loop state of `solve_quiz_chain`: `current_url` (a JSON
value, since a continuation target is whatever the `url` field held),
`steps` and `last_submit_status`. -/
structure ChainState where
  currentUrl : JVal
  steps : ℕ
  lastStatus : Option ℕ

/-- Outcome of the submission POST, as observed by the orchestrator:
whether the transport succeeded (`client.post` raised no `httpx` error),
the status code, and the parsed JSON body (`none` = `resp.json()` raised). -/
structure SubmitResp where
  transportOk : Bool
  status : ℕ
  body : Option JVal

/-- The external world of one loop iteration: the clock reading at the loop
top, the rendered page (`none` = the fetch raised), the downloaded-and-
parsed PDF (outer `none` = `http_get_bytes` raised, inner `none` =
`pdfplumber` failed to open), the downloaded-and-parsed tabular file
(outer `none` = download raised, inner `none` = the pandas/json parse
raised) and the submission response. -/
structure IterEnv where
  now : Dec
  fetched : Option String
  pdfFetch : Option (Option Pdf)
  dataFetch : Option (Option Table)
  resp : SubmitResp

/-- The distinct `raise` sites of `solve_quiz_chain` (all surfaced to the
endpoint as generic failures except the timeout). -/
inductive ChainErr
  | fetchFailed
  | submitUrlMissing
  | noPdfLink
  | pdfDownloadFailed
  | pdfSumFailed
  | dataDownloadFailed
  | dataParseFailed
  | noSolverMatched
  | submitFailed
  | respJsonFailed
deriving DecidableEq

/-- Externally visible actions of one iteration, in order: the page fetch,
file downloads, and the submission POST with its answer payload. -/
inductive ChainAction
  | fetch (url : JVal)
  | download (url : String)
  | post (url : JVal) (answer : PyNum)

/-- The success report of `solve_quiz_chain`
(`{ok: true, steps, last_url, last_submit_status}`). -/
structure ChainResult where
  steps : ℕ
  lastUrl : JVal
  lastStatus : Option ℕ

/-- Result of the body of one iteration (after the deadline check):
`failed` = one of the `raise` sites fired, `done` = the chain returned,
`goOn` = a truthy continuation URL was found. -/
inductive BodyRes
  | failed (e : ChainErr) (st : ChainState)
  | done (r : ChainResult)
  | goOn (st : ChainState)

/-- Result of one full iteration including the deadline check. -/
inductive StepRes
  | timedOut (st : ChainState)
  | failed (e : ChainErr) (st : ChainState)
  | done (r : ChainResult)
  | goOn (st : ChainState)

/-- Truthiness of an optional JSON value (`if not submit_url` /
`if next_url` over a value that may be absent). -/
def truthyOptJ (o : Option JVal) : Bool :=
  match o with
  | some v => jTruthy v
  | none => false

/-- Submit-URL resolution of `main.py` lines 133–136: the text directive
first; only when it yields nothing, the `submit` field of the embedded
JSON payload (`find_embedded_json_payload(expanded) or {}`). -/
def resolveSubmitVal (text expanded : String) : Option JVal :=
  match extractSubmitUrl text with
  | some u => some (.jstr u)
  | none =>
    match findEmbeddedJsonPayload expanded with
    | some (.jobj kvs) => jGet kvs ("submit")
    | _ => none

/-- Outcome of the answer-computation block. -/
inductive SolveOut
  | ans (a : Option PyNum)
  | err (e : ChainErr)

/-- Heuristic 1 (`main.py` lines 143–157): when the PDF-task pattern
matches, the first PDF link is required and downloaded, and a failed sum
raises; otherwise the answer stays absent. -/
def solvePdfH (env : IterEnv) (text expanded : String) :
    SolveOut × List ChainAction :=
  match pdfTaskMatch text with
  | none => (.ans none, [])
  | some (colRaw, pageNo) =>
    match findPdfLinks expanded with
    | [] => (.err .noPdfLink, [])
    | u :: _ =>
      match env.pdfFetch with
      | none => (.err .pdfDownloadFailed, [.download u])
      | some pdfOpt =>
        match sumValueColumnPdf pdfOpt (pyStrip colRaw) pageNo with
        | none => (.err .pdfSumFailed, [.download u])
        | some v => (.ans (some v), [.download u])

/-- The answer-computation block (`main.py` lines 140–184): heuristic 1
(PDF column sum), then heuristic 2 (`how many rows`, counting `<tr` in the
raw html), then heuristic 3 (csv/json/xlsx value-column sum); if no
heuristic produced an answer the step raises `No solver matched`. -/
def solveAnswer (env : IterEnv) (text html expanded : String) :
    SolveOut × List ChainAction :=
  match solvePdfH env text expanded with
  | (.err e, acts) => (.err e, acts)
  | (.ans a0, acts) =>
    let a1 : Option PyNum :=
      match a0 with
      | some v => some v
      | none =>
        if containsCI (String.data ("how many rows")) text.data then
          some (.pint (countTr html))
        else none
    match a1 with
    | some v => (.ans (some v), acts)
    | none =>
      match findDataLinks expanded with
      | [] => (.err .noSolverMatched, acts)
      | u :: _ =>
        match env.dataFetch with
        | none => (.err .dataDownloadFailed, acts ++ [.download u])
        | some none => (.err .dataParseFailed, acts ++ [.download u])
        | some (some tb) =>
          match tabularValueSum tb with
          | some v => (.ans (some v), acts ++ [.download u])
          | none => (.err .noSolverMatched, acts ++ [.download u])

/-- `data.get("url") if isinstance(data, dict) else None` (line 196). -/
def nextUrlVal (data : JVal) : Option JVal :=
  match data with
  | .jobj kvs => jGet kvs ("url")
  | _ => none

/-- The submission block (`main.py` lines 186–205): POST, record the
status (before the success check), require 2xx, parse the body; on success
bump the step counter and continue exactly when the body is a dict whose
`url` value is truthy, else return the success report. -/
def submitPhase (env : IterEnv) (sv : JVal) (ans : PyNum) (st : ChainState)
    (acts : List ChainAction) : BodyRes × List ChainAction :=
  let acts2 := acts ++ [.post sv ans]
  if env.resp.transportOk = false then (.failed .submitFailed st, acts2)
  else
    let st1 : ChainState := { st with lastStatus := some env.resp.status }
    if ¬ (200 ≤ env.resp.status ∧ env.resp.status < 300) then
      (.failed .submitFailed st1, acts2)
    else
      match env.resp.body with
      | none => (.failed .respJsonFailed st1, acts2)
      | some data =>
        let st2 : ChainState := { st1 with steps := st1.steps + 1 }
        match nextUrlVal data with
        | some v =>
          if jTruthy v then (.goOn { st2 with currentUrl := v }, acts2)
          else (.done ⟨st2.steps, st2.currentUrl, st2.lastStatus⟩, acts2)
        | none => (.done ⟨st2.steps, st2.currentUrl, st2.lastStatus⟩, acts2)

/-- One iteration after a successful fetch: decode, flatten, resolve the
submission target, compute the answer, submit. -/
def pageStep (env : IterEnv) (html : String) (st : ChainState) :
    BodyRes × List ChainAction :=
  let expanded := tryDecodeB64Blocks html
  let text := normalizeWs (stripTags expanded)
  let sv := resolveSubmitVal text expanded
  if truthyOptJ sv = false then (.failed .submitUrlMissing st, [])
  else
    match sv with
    | none => (.failed .submitUrlMissing st, [])
    | some v =>
      match solveAnswer env text html expanded with
      | (.err e, acts) => (.failed e st, acts)
      | (.ans none, acts) => (.failed .noSolverMatched st, acts)
      | (.ans (some a), acts) => submitPhase env v a st acts

/-- The body of one loop iteration: fetch the current page (a raising
fetch is a chain failure), then run the page step. -/
def stepBody (env : IterEnv) (st : ChainState) :
    BodyRes × List ChainAction :=
  match env.fetched with
  | none => (.failed .fetchFailed st, [.fetch st.currentUrl])
  | some html =>
    match pageStep env html st with
    | (r, acts) => (r, .fetch st.currentUrl :: acts)

/-- One full loop iteration of `solve_quiz_chain`: the deadline is checked
first (`time.time() >= deadline_ts` raises `TimeoutError`), and only then
is any external action taken. -/
def chainIter (cfg : ChainCfg) (env : IterEnv) (st : ChainState) :
    StepRes × List ChainAction :=
  if Dec.ble cfg.deadline env.now then (.timedOut st, [])
  else
    match stepBody env st with
    | (.failed e s, a) => (.failed e s, a)
    | (.done r, a) => (.done r, a)
    | (.goOn s, a) => (.goOn s, a)

/-- Terminal outcome of a chain run over a finite trace of iteration
environments.  `noTrace` is a model artifact: the trace ended while the
chain would have continued. -/
inductive ChainOutcome
  | done (r : ChainResult)
  | timedOut (st : ChainState)
  | failed (e : ChainErr) (st : ChainState)
  | noTrace (st : ChainState)

/-- `solve_quiz_chain`'s loop, driven by a finite trace of per-iteration
environments. -/
def solveChain (cfg : ChainCfg) : List IterEnv → ChainState →
    ChainOutcome × List ChainAction
  | [], st => (.noTrace st, [])
  | env :: rest, st =>
    match chainIter cfg env st with
    | (.timedOut s, a) => (.timedOut s, a)
    | (.failed e s, a) => (.failed e s, a)
    | (.done r, a) => (.done r, a)
    | (.goOn s, a) =>
      match solveChain cfg rest s with
      | (o, a2) => (o, a ++ a2)

/-- The initial state (`steps = 0`, no submission yet). -/
def initialState (firstUrl : String) : ChainState :=
  ⟨.jstr firstUrl, 0, none⟩

/-- The caller-visible response shapes of `quiz_endpoint`. -/
inductive EndpointResp
  | okTrue (r : ChainResult)
  | okFalse (e : ChainErr)
  | http408
  | incomplete

/-- The `try/except` of `quiz_endpoint` around the chain: a `TimeoutError`
becomes `HTTPException(408)`, any other chain failure becomes the
`{ok: false, error}` payload — never an unhandled fault. -/
def endpointWrap : ChainOutcome → EndpointResp
  | .done r => .okTrue r
  | .timedOut _ => .http408
  | .failed e _ => .okFalse e
  | .noTrace _ => .incomplete

/-- Page fixture for the chain-level claims: a page directing submission
to `u` and asking a row-count question, with one table row. -/
def rowsPage (u : String) : String :=
  "<p>Submit to " ++ u ++ "</p><p>How many rows?</p><table><tr></tr></table>"

/-- Environment fixture: clock `0`, a fetched page, no file downloads, and
a `200` submission response with the given body. -/
def okEnv (h : String) (b : Option JVal) : IterEnv :=
  ⟨⟨0, 0⟩, some h, none, none, ⟨true, 200, b⟩⟩

/-- A deadline far in the future. -/
def lateCfg : ChainCfg := ⟨⟨1000, 0⟩⟩

/-- Page fixture for C3: the PDF-task pattern matches, a PDF link exists,
and a row-count task is also present on the same page. -/
def pdfTrapPage : String :=
  "<p>submit to http://q/s</p>" ++
  "<p>sum of the value column in the table on page 1</p>" ++
  "<p>http://q/f.pdf</p><p>How many rows?</p><table><tr></tr></table>"

/-- C3 environment: the downloaded PDF opens to a single page with no
tables and empty text, so the PDF heuristic computes no sum. -/
def pdfTrapEnv : IterEnv :=
  ⟨⟨0, 0⟩, some pdfTrapPage, some (some [⟨[], ""⟩]), none,
    ⟨true, 200, some (.jobj [])⟩⟩

/-- C10 page fixture: only a CSV link, no other task pattern. -/
def csvOnlyPage : String :=
  "<p>submit to http://q/s</p><p>See http://q/d.csv</p>"

/-- C10 table fixture: the parsed file has no `value` column. -/
def noValueTable : Table := ⟨[("other")], [[("1")]]⟩

/-- C10 environment. -/
def csvOnlyEnv : IterEnv :=
  ⟨⟨0, 0⟩, some csvOnlyPage, none, some (some noValueTable),
    ⟨true, 200, some (.jobj [])⟩⟩

/-- C4 page fixture: no extractable submission target at all. -/
def noSubmitPage : String := "<p>nothing to see here</p>"

/-- C4 environment. -/
def noSubmitEnv : IterEnv :=
  ⟨⟨0, 0⟩, some noSubmitPage, none, none, ⟨true, 200, some (.jobj [])⟩⟩

theorem isPySpace_space : isPySpace ' ' = true := by decide

theorem wsOk_cons (c : Char) (t : List Char) :
    wsOk (c :: t) = (wsPairOk c t.head? && wsOk t) := rfl

theorem wsOk_tail (c : Char) (t : List Char) (h : wsOk (c :: t) = true) :
    wsOk t = true := by
  rw [wsOk_cons, Bool.and_eq_true] at h
  exact h.2

theorem wsOk_pair (c : Char) (t : List Char) (h : wsOk (c :: t) = true) :
    wsPairOk c t.head? = true := by
  rw [wsOk_cons, Bool.and_eq_true] at h
  exact h.1

theorem wsPairOk_of_not_space (c : Char) (next : Option Char)
    (hc : isPySpace c = false) : wsPairOk c next = true := by
  simp [wsPairOk, hc]

theorem wsPairOk_space_elim (c : Char) (next : Option Char)
    (hc : isPySpace c = true) (h : wsPairOk c next = true) :
    c = ' ' ∧ ∀ d, next = some d → isPySpace d = false := by
  simp only [wsPairOk, hc, Bool.not_true, Bool.false_or, Bool.and_eq_true,
    beq_iff_eq] at h
  refine ⟨h.1, ?_⟩
  intro d hd
  subst hd
  simpa using h.2

theorem wsPairOk_space_intro (next : Option Char)
    (h : ∀ d, next = some d → isPySpace d = false) :
    wsPairOk ' ' next = true := by
  cases next with
  | none => simp [wsPairOk, isPySpace_space]
  | some d => simp [wsPairOk, isPySpace_space, h d rfl]

theorem wsCollapse_head_of_not_space (d : Char) (t : List Char)
    (h : isPySpace d = false) :
    (wsCollapse (d :: t)).head? = some d := by
  cases t with
  | nil => simp [wsCollapse, h]
  | cons e t' => simp [wsCollapse, h]

theorem wsOk_wsCollapse (l : List Char) : wsOk (wsCollapse l) = true := by
  induction l with
  | nil => rfl
  | cons c t ih =>
    cases t with
    | nil =>
      by_cases hc : isPySpace c = true
      · have h1 : wsCollapse [c] = [' '] := by simp [wsCollapse, hc]
        rw [h1]
        decide
      · have hc' : isPySpace c = false := by simpa using hc
        have h1 : wsCollapse [c] = [c] := by simp [wsCollapse, hc']
        rw [h1, wsOk_cons, Bool.and_eq_true]
        exact ⟨wsPairOk_of_not_space c _ hc', rfl⟩
    | cons d t' =>
      by_cases hc : isPySpace c = true
      · by_cases hd : isPySpace d = true
        · simpa [wsCollapse, hc, hd] using ih
        · have hd' : isPySpace d = false := by simpa using hd
          have hh := wsCollapse_head_of_not_space d t' hd'
          have h1 : wsCollapse (c :: d :: t') = ' ' :: wsCollapse (d :: t') := by
            simp [wsCollapse, hc, hd']
          rw [h1, wsOk_cons, Bool.and_eq_true, hh]
          refine ⟨wsPairOk_space_intro _ ?_, ih⟩
          intro e he
          cases he
          exact hd'
      · have hc' : isPySpace c = false := by simpa using hc
        have h1 : wsCollapse (c :: d :: t') = c :: wsCollapse (d :: t') := by
          simp [wsCollapse, hc']
        rw [h1, wsOk_cons, Bool.and_eq_true]
        exact ⟨wsPairOk_of_not_space c _ hc', ih⟩

theorem wsCollapse_of_wsOk (l : List Char) (h : wsOk l = true) :
    wsCollapse l = l := by
  induction l with
  | nil => rfl
  | cons c t ih =>
    have hp := wsOk_pair c t h
    have ht := wsOk_tail c t h
    cases t with
    | nil =>
      by_cases hc : isPySpace c = true
      · have := (wsPairOk_space_elim c _ hc hp).1
        simp [wsCollapse, hc, this]
      · simp [wsCollapse, hc]
    | cons d t' =>
      by_cases hc : isPySpace c = true
      · obtain ⟨hce, hnext⟩ := wsPairOk_space_elim c _ hc hp
        have hd : isPySpace d = false := hnext d rfl
        simp [wsCollapse, hc, hd, ih ht, hce]
      · simp [wsCollapse, hc, ih ht]

theorem wsOk_dropWhile (l : List Char) (h : wsOk l = true) :
    wsOk (l.dropWhile isPySpace) = true := by
  induction l with
  | nil => simpa using h
  | cons c t ih =>
    by_cases hc : isPySpace c = true
    · simp only [List.dropWhile_cons, hc, if_true]
      exact ih (wsOk_tail c t h)
    · simpa [List.dropWhile_cons, hc] using h

theorem wsDropTrailing_cons_eq_nil (c : Char) (t : List Char)
    (h : wsDropTrailing t = []) :
    wsDropTrailing (c :: t) = if isPySpace c = true then [] else [c] := by
  show (match wsDropTrailing t with
    | [] => if isPySpace c = true then [] else [c]
    | r => c :: r) = _
  rw [h]

theorem wsDropTrailing_cons_eq_cons (c : Char) (t : List Char) (y : Char)
    (ys : List Char) (h : wsDropTrailing t = y :: ys) :
    wsDropTrailing (c :: t) = c :: y :: ys := by
  show (match wsDropTrailing t with
    | [] => if isPySpace c = true then [] else [c]
    | r => c :: r) = _
  rw [h]

theorem wsDropTrailing_head (l : List Char) (x : Char) (xs : List Char)
    (h : wsDropTrailing l = x :: xs) : l.head? = some x := by
  cases l with
  | nil => simp [wsDropTrailing] at h
  | cons c t =>
    cases hrec : wsDropTrailing t with
    | nil =>
      rw [wsDropTrailing_cons_eq_nil c t hrec] at h
      by_cases hc : isPySpace c = true
      · simp [hc] at h
      · have hc' : isPySpace c = false := by simpa using hc
        simp [hc'] at h
        simp [h.1]
    | cons y ys =>
      rw [wsDropTrailing_cons_eq_cons c t y ys hrec] at h
      rw [List.cons.injEq] at h
      simp [h.1]

theorem wsOk_wsDropTrailing (l : List Char) (h : wsOk l = true) :
    wsOk (wsDropTrailing l) = true := by
  induction l with
  | nil => simpa using h
  | cons c t ih =>
    have hp := wsOk_pair c t h
    have ht := wsOk_tail c t h
    cases hrec : wsDropTrailing t with
    | nil =>
      rw [wsDropTrailing_cons_eq_nil c t hrec]
      by_cases hc : isPySpace c = true
      · rw [if_pos hc]
        rfl
      · rw [if_neg hc]
        rw [wsOk_cons, Bool.and_eq_true]
        exact ⟨wsPairOk_of_not_space c _ (by simpa using hc), rfl⟩
    | cons y ys =>
      rw [wsDropTrailing_cons_eq_cons c t y ys hrec]
      have hy : wsOk (y :: ys) = true := by
        have := ih ht
        rwa [hrec] at this
      have hhead := wsDropTrailing_head t y ys hrec
      rw [wsOk_cons, Bool.and_eq_true]
      refine ⟨?_, hy⟩
      simp only [List.head?_cons]
      by_cases hc : isPySpace c = true
      · obtain ⟨hce, hnext⟩ := wsPairOk_space_elim c _ hc hp
        subst hce
        exact wsPairOk_space_intro _ (by
          intro e he
          cases he
          exact hnext y hhead)
      · exact wsPairOk_of_not_space c _ (by simpa using hc)

theorem dropWhile_head_not (l : List Char) (x : Char) (xs : List Char)
    (h : l.dropWhile isPySpace = x :: xs) : isPySpace x = false := by
  induction l with
  | nil => simp [List.dropWhile] at h
  | cons c t ih =>
    by_cases hc : isPySpace c = true
    · simp only [List.dropWhile_cons, hc, if_true] at h
      exact ih h
    · have hc' : isPySpace c = false := by simpa using hc
      simp [List.dropWhile_cons, hc'] at h
      rw [← h.1]
      exact hc'

theorem dropWhile_of_head_not (l : List Char)
    (h : ∀ x xs, l = x :: xs → isPySpace x = false) :
    l.dropWhile isPySpace = l := by
  cases l with
  | nil => rfl
  | cons c t => simp [List.dropWhile_cons, h c t rfl]

theorem wsDropTrailing_idem (l : List Char) :
    wsDropTrailing (wsDropTrailing l) = wsDropTrailing l := by
  induction l with
  | nil => rfl
  | cons c t ih =>
    cases hrec : wsDropTrailing t with
    | nil =>
      by_cases hc : isPySpace c = true
      · rw [wsDropTrailing_cons_eq_nil c t hrec, if_pos hc]
        rfl
      · rw [wsDropTrailing_cons_eq_nil c t hrec, if_neg hc]
        rw [wsDropTrailing_cons_eq_nil c [] rfl, if_neg hc]
    | cons y ys =>
      rw [hrec] at ih
      rw [wsDropTrailing_cons_eq_cons c t y ys hrec]
      exact wsDropTrailing_cons_eq_cons c (y :: ys) y ys ih

/-- Claim C7 — **confirmed**. `normalize_ws` (collapse all whitespace runs to
single spaces, then trim both ends) is idempotent:
`normalize_ws(normalize_ws(s)) == normalize_ws(s)` for every string. -/
theorem normalizeWs_idempotent (s : String) :
    normalizeWs (normalizeWs s) = normalizeWs s := by
  unfold normalizeWs
  congr 1
  show normalizeWsList (normalizeWsList s.data) = normalizeWsList s.data
  set l := s.data with hl
  unfold normalizeWsList pyStripList
  set w := (wsCollapse l).dropWhile isPySpace with hw
  set u := wsDropTrailing w with hu
  have hokc : wsOk (wsCollapse l) = true := wsOk_wsCollapse l
  have hokw : wsOk w = true := wsOk_dropWhile _ hokc
  have hoku : wsOk u = true := wsOk_wsDropTrailing _ hokw
  have hcoll : wsCollapse u = u := wsCollapse_of_wsOk u hoku
  rw [hcoll]
  have hdrop : u.dropWhile isPySpace = u := by
    apply dropWhile_of_head_not
    intro x xs hx
    have hhead := wsDropTrailing_head w x xs (hu ▸ hx)
    cases hwcase : w with
    | nil => rw [hwcase] at hhead ; simp [List.head?] at hhead
    | cons y ys =>
      rw [hwcase] at hhead
      simp only [List.head?] at hhead
      have hxy : y = x := by simpa using hhead
      have := dropWhile_head_not (wsCollapse l) y ys (hw ▸ hwcase)
      rw [← hxy]
      exact this
  rw [hdrop, hu, wsDropTrailing_idem]

theorem take_of_split (l l1 : List Char) (u v : Char) (w : List Char)
    (hsplit : l = l1 ++ u :: v :: w) :
    l.take (l1.length + 2) = l1 ++ [u, v] := by
  subst hsplit
  rw [List.take_append]
  simp [List.take_succ_cons]

theorem afterAtobOpen_spec (rest : List Char) (p : String) (n : ℕ)
    (h : afterAtobOpen rest = some (p, n)) :
    p.data = rest.takeWhile (fun c => c != bqChar) ∧ p.data ≠ [] ∧
      n = 8 + p.data.length ∧
      rest.take (p.data.length + 2) = p.data ++ [bqChar, ')'] := by
  unfold afterAtobOpen at h
  cases hdrop : rest.dropWhile (fun c => c != bqChar) with
  | nil => rw [hdrop] at h ; simp at h
  | cons u tail =>
    cases tail with
    | nil => rw [hdrop] at h ; simp at h
    | cons v w =>
      rw [hdrop] at h
      simp only [] at h
      by_cases hg : rest.takeWhile (fun c => c != bqChar) ≠ [] ∧
          u = bqChar ∧ v = ')'
      · rw [if_pos hg] at h
        rw [Option.some.injEq, Prod.mk.injEq] at h
        obtain ⟨hp, hn⟩ := h
        have hpd : p.data = rest.takeWhile (fun c => c != bqChar) := by
          rw [← hp]
        have hsplit : rest = rest.takeWhile (fun c => c != bqChar) ++
            (u :: v :: w) := by
          conv_lhs => rw [← List.takeWhile_append_dropWhile
            (p := fun c => c != bqChar) (l := rest)]
          rw [hdrop]
        have htake := take_of_split rest
          (rest.takeWhile (fun c => c != bqChar)) u v w hsplit
        refine ⟨hpd, by rw [hpd] ; exact hg.1, by rw [← hn, hpd], ?_⟩
        rw [hpd, htake, hg.2.1, hg.2.2]
      · rw [if_neg hg] at h
        exact absurd h (by simp)

theorem matchAtobHere_spec (l : List Char) (p : String) (n : ℕ)
    (h : matchAtobHere l = some (p, n)) :
    1 ≤ n ∧ n ≤ l.length ∧
      l.take n = l.take 6 ++ p.data ++ [bqChar, ')'] := by
  match l with
  | [] => exact absurd h (by simp [matchAtobHere])
  | [a] => exact absurd h (by simp [matchAtobHere])
  | [a, t] => exact absurd h (by simp [matchAtobHere])
  | [a, t, o] => exact absurd h (by simp [matchAtobHere])
  | [a, t, o, b] => exact absurd h (by simp [matchAtobHere])
  | [a, t, o, b, par] => exact absurd h (by simp [matchAtobHere])
  | a :: t :: o :: b :: par :: q :: rest =>
    unfold matchAtobHere at h
    simp only [] at h
    by_cases hg : lcAscii a = 'a' ∧ lcAscii t = 't' ∧ lcAscii o = 'o' ∧
        lcAscii b = 'b' ∧ par = '(' ∧ q = bqChar
    · rw [if_pos hg] at h
      obtain ⟨hpd, hpne, hn, htake⟩ := afterAtobOpen_spec rest p n h
      have hlen : p.data.length + 2 ≤ rest.length := by
        have h1 : (rest.take (p.data.length + 2)).length ≤ rest.length := by
          rw [List.length_take]
          omega
        have h2 : (rest.take (p.data.length + 2)).length =
            p.data.length + 2 := by
          rw [htake]
          simp
        omega
      subst hn
      refine ⟨by omega, ?_, ?_⟩
      · show 8 + p.data.length ≤ (a :: t :: o :: b :: par :: q :: rest).length
        simp only [List.length_cons]
        omega
      have hsix : (a :: t :: o :: b :: par :: q :: rest).take
          (8 + p.data.length) =
          a :: t :: o :: b :: par :: q :: rest.take (p.data.length + 2) := by
        have h8 : 8 + p.data.length = (p.data.length + 2) + 6 := by omega
        rw [h8]
        simp [List.take_succ_cons]
      rw [hsix, htake]
      simp
    · rw [if_neg hg] at h
      exact absurd h (by simp)

theorem scanB64Fuel_nil (f : ℕ) : scanB64Fuel f [] = [] := by
  cases f <;> rfl

theorem scanB64Fuel_fuel (f1 : ℕ) : ∀ (f2 : ℕ) (l : List Char),
    l.length ≤ f1 → l.length ≤ f2 → scanB64Fuel f1 l = scanB64Fuel f2 l := by
  induction f1 with
  | zero =>
    intro f2 l h1 _
    have : l = [] := List.eq_nil_of_length_eq_zero (Nat.le_zero.mp h1)
    subst this
    rw [scanB64Fuel_nil, scanB64Fuel_nil]
  | succ g1 ih =>
    intro f2 l h1 h2
    cases l with
    | nil => rw [scanB64Fuel_nil, scanB64Fuel_nil]
    | cons c cs =>
      cases f2 with
      | zero => simp at h2
      | succ g2 =>
        cases hm : matchAtobHere (c :: cs) with
        | none =>
          simp only [scanB64Fuel, hm]
          rw [ih g2 cs (by simpa using h1) (by simpa using h2)]
        | some pn =>
          obtain ⟨p, n⟩ := pn
          obtain ⟨hn1, hnle, _⟩ := matchAtobHere_spec _ p n hm
          simp only [scanB64Fuel, hm]
          congr 1
          apply ih
          · rw [List.length_drop]
            simp only [List.length_cons] at h1 hnle ⊢
            omega
          · rw [List.length_drop]
            simp only [List.length_cons] at h2 hnle ⊢
            omega

theorem scanB64Fuel_of_no_match (f : ℕ) : ∀ (l : List Char),
    hasAtobMatch l = false → scanB64Fuel f l = l := by
  induction f with
  | zero => intro l _ ; rfl
  | succ g ih =>
    intro l h
    cases l with
    | nil => rfl
    | cons c cs =>
      have h' : matchAtobHere (c :: cs) = none ∧ hasAtobMatch cs = false := by
        simp only [hasAtobMatch, Bool.or_eq_false_iff] at h
        exact ⟨Option.not_isSome_iff_eq_none.mp (by simp [h.1]), h.2⟩
      simp only [scanB64Fuel, h'.1]
      rw [ih cs h'.2]

/-- Claim C5 — **confirmed**.  At every occurrence of the obfuscation
pattern (a match of `atob\(`([^`]+)`\)`), `try_decode_base64_blocks`
replaces exactly the matched slice and scans on after it: when the payload
(newlines removed) is valid base64 the slice becomes the UTF-8 text of the
decoded bytes (undecodable byte sequences ignored), and when the payload is
not valid base64 the original matched text is kept unchanged.  The function
is total, modelling that the Python code never throws (decode errors are
caught per occurrence). -/
theorem tryDecodeB64_per_occurrence (l : List Char) (p : String) (n : ℕ)
    (h : matchAtobHere l = some (p, n)) :
    tryDecodeB64Blocks (String.mk l) =
        String.mk ((repAtob (String.mk (l.take n)) p).data ++
          (tryDecodeB64Blocks (String.mk (l.drop n))).data)
      ∧ l.take n = l.take 6 ++ p.data ++ [bqChar, ')']
      ∧ (b64decodePy (p.data.filter (fun c => c != nlChar)) = none →
          repAtob (String.mk (l.take n)) p = String.mk (l.take n))
      ∧ (∀ bs,
          b64decodePy (p.data.filter (fun c => c != nlChar)) = some bs →
          repAtob (String.mk (l.take n)) p = String.mk (utf8Ignore bs)) := by
  obtain ⟨hn1, hnle, hshape⟩ := matchAtobHere_spec l p n h
  refine ⟨?_, hshape, ?_, ?_⟩
  · cases l with
    | nil => exact absurd h (by simp [matchAtobHere])
    | cons c cs =>
      show String.mk (scanB64Fuel (cs.length + 1) (c :: cs)) = _
      simp only [scanB64Fuel, h]
      congr 1
      congr 1
      apply scanB64Fuel_fuel
      · rw [List.length_drop]
        simp only [List.length_cons] at hnle ⊢
        omega
      · rfl
  · intro hb
    simp [repAtob, hb]
  · intro bs hb
    simp [repAtob, hb]

/-- Witness for C5: a concrete page fragment with one valid occurrence;
`atob(`aGk=`)` decodes to `hi` and the suffix is preserved. -/
theorem tryDecodeB64_per_occurrence_witness :
    tryDecodeB64Blocks ("atob(`aGk=`)x") = "hix" := by
  have h := (tryDecodeB64_per_occurrence
    (String.data ("atob(`aGk=`)x")) ("aGk=") 12 (by decide)).1
  exact h.trans (by decide)

/-- Claim C6 counterexample — the decode is **not** idempotent: a payload
that itself decodes to an `atob` call is decoded again by the second pass
(`atob(`YXRvYihgYUdrPWAp`)` decodes to `atob(`aGk=`)`, which decodes to
`hi`). -/
theorem tryDecodeB64_not_idempotent :
    tryDecodeB64Blocks (tryDecodeB64Blocks ("atob(`YXRvYihgYUdrPWAp`)")) ≠
      tryDecodeB64Blocks ("atob(`YXRvYihgYUdrPWAp`)") := by decide

/-- Claim C6 — **corrected**.  `try_decode_base64_blocks` is a no-op on any
string containing no `atob` obfuscation block; consequently applying it
twice equals applying it once whenever the first application's output
contains no further block.  Full idempotence fails (see the
counterexample): a decoded payload may itself contain an `atob` call, which
a second application decodes again. -/
theorem tryDecodeB64_noop_on_decoded (s : String) :
    (hasAtobMatch s.data = false → tryDecodeB64Blocks s = s) ∧
    (hasAtobMatch (tryDecodeB64Blocks s).data = false →
      tryDecodeB64Blocks (tryDecodeB64Blocks s) = tryDecodeB64Blocks s) := by
  constructor
  · intro h
    show String.mk (scanB64Fuel s.data.length s.data) = s
    rw [scanB64Fuel_of_no_match _ _ h]
  · intro h
    show String.mk (scanB64Fuel (tryDecodeB64Blocks s).data.length
      (tryDecodeB64Blocks s).data) = tryDecodeB64Blocks s
    rw [scanB64Fuel_of_no_match _ _ h]

/-- Witness for the amended C6: on a string with no obfuscation block the
decode is the identity. -/
theorem tryDecodeB64_noop_on_decoded_witness :
    tryDecodeB64Blocks ("plain text, no blocks") = "plain text, no blocks" :=
  (tryDecodeB64_noop_on_decoded ("plain text, no blocks")).1 (by decide)

theorem Dec.ble_iff (a b : Dec) :
    Dec.ble a b = true ↔ a.toRat ≤ b.toRat := by
  unfold Dec.ble Dec.toRat
  rw [decide_eq_true_iff]
  rw [div_le_div_iff₀ (by positivity) (by positivity)]
  constructor
  · intro h
    exact_mod_cast h
  · intro h
    exact_mod_cast h

theorem Dec.blt_iff (a b : Dec) :
    Dec.blt a b = true ↔ a.toRat < b.toRat := by
  unfold Dec.blt Dec.toRat
  rw [decide_eq_true_iff]
  rw [div_lt_div_iff₀ (by positivity) (by positivity)]
  constructor
  · intro h
    exact_mod_cast h
  · intro h
    exact_mod_cast h

theorem Dec.toRat_add (a b : Dec) :
    (Dec.add a b).toRat = a.toRat + b.toRat := by
  unfold Dec.add Dec.toRat
  have h1 : (10 : ℚ) ^ (max a.exp b.exp - a.exp) * 10 ^ a.exp =
      10 ^ max a.exp b.exp := by
    rw [← pow_add]
    congr 1
    omega
  have h2 : (10 : ℚ) ^ (max a.exp b.exp - b.exp) * 10 ^ b.exp =
      10 ^ max a.exp b.exp := by
    rw [← pow_add]
    congr 1
    omega
  rw [div_add_div _ _ (by positivity) (by positivity),
    div_eq_div_iff (by positivity) (by positivity)]
  push_cast
  linear_combination ((a.mant : ℚ) * 10 ^ b.exp) * h1 +
    ((b.mant : ℚ) * 10 ^ a.exp) * h2

theorem Dec.toRat_neg (a : Dec) : (Dec.neg a).toRat = -a.toRat := by
  unfold Dec.neg Dec.toRat
  push_cast
  ring

theorem Dec.toRat_sub (a b : Dec) :
    (Dec.sub a b).toRat = a.toRat - b.toRat := by
  unfold Dec.sub
  rw [Dec.toRat_add, Dec.toRat_neg]
  ring

theorem Dec.toRat_dabs (a : Dec) : (Dec.dabs a).toRat = |a.toRat| := by
  unfold Dec.dabs Dec.toRat
  rw [abs_div, abs_of_pos (a := (10 : ℚ) ^ a.exp) (by positivity)]
  push_cast
  rfl

theorem Dec.toRat_ofInt (z : ℤ) : (Dec.ofInt z).toRat = z := by
  unfold Dec.ofInt Dec.toRat
  simp

/-- The integrality test of `pyIntFloat`, in terms of rational values:
it compares against the truncation toward zero, with tolerance `1e-9`. -/
theorem pyIntFloat_test (d : Dec) :
    Dec.blt (Dec.dabs (Dec.sub d (Dec.ofInt (Dec.truncZ d)))) ⟨1, 9⟩ = true ↔
      |d.toRat - (Dec.truncZ d : ℚ)| < 1 / 1000000000 := by
  rw [Dec.blt_iff, Dec.toRat_dabs, Dec.toRat_sub, Dec.toRat_ofInt]
  have h : (Dec.toRat ⟨1, 9⟩) = 1 / 1000000000 := by
    unfold Dec.toRat
    norm_num
  rw [h]

theorem pyIntFloat_int (d : Dec)
    (h : |d.toRat - (Dec.truncZ d : ℚ)| < 1 / 1000000000) :
    pyIntFloat d = .pint (Dec.truncZ d) := by
  unfold pyIntFloat
  rw [if_pos ((pyIntFloat_test d).mpr h)]

theorem pyIntFloat_float (d : Dec)
    (h : ¬ |d.toRat - (Dec.truncZ d : ℚ)| < 1 / 1000000000) :
    pyIntFloat d = .pfloat d := by
  unfold pyIntFloat
  have : Dec.blt (Dec.dabs (Dec.sub d (Dec.ofInt (Dec.truncZ d)))) ⟨1, 9⟩ =
      false := by
    rcases hb : Dec.blt (Dec.dabs (Dec.sub d (Dec.ofInt (Dec.truncZ d))))
        ⟨1, 9⟩ with _ | _
    · rfl
    · exact absurd ((pyIntFloat_test d).mp hb) h
  rw [this]
  simp

/-- Claim C8 counterexample — the integer/float normalization does
**not** report an integer whenever the sum is within `1e-9` of an
integer: a single `value` cell `2.9999999996` sums to a value within
`4e-10` of the integer `3`, yet the heuristic reports it as a float
(the code compares against `int(s)`, the truncation `2`, not against the
nearest integer). -/
theorem sumPdf_tolerance_counterexample :
    (∃ k : ℤ, |Dec.toRat ⟨29999999996, 10⟩ - (k : ℚ)| < 1 / 1000000000) ∧
    sumValueColumnPdf
      (some [⟨[[[some ("item"), some ("value")],
        [some ("a"), some ("2.9999999996")]]], ""⟩]) ("value") 1 =
      some (.pfloat ⟨29999999996, 10⟩) := by
  constructor
  · refine ⟨3, ?_⟩
    unfold Dec.toRat
    norm_num
    rw [abs_of_pos (by norm_num : (0 : ℚ) < 1 / 2500000000)]
    norm_num
  · rfl

/-- Claim C8 — **corrected**.  The concrete example holds: on the page
whose table has header `[item, value]` and rows `[[a, 10], [b, 2.5]]`,
requesting column `value` yields `12.5` as a float.  The general clause is
amended: the sum is reported as an integer exactly when it is within
`1e-9` of its truncation toward zero (`int(s)`), not of an arbitrary
nearest integer — a sum just below an integer is still reported as a
float. -/
theorem sumPdf_c8_amended :
    sumValueColumnPdf
      (some [⟨[[[some ("item"), some ("value")], [some ("a"), some ("10")],
        [some ("b"), some ("2.5")]]], ""⟩]) ("value") 1 =
      some (.pfloat ⟨125, 1⟩)
    ∧ Dec.toRat ⟨125, 1⟩ = 25 / 2
    ∧ (∀ d : Dec, |d.toRat - (Dec.truncZ d : ℚ)| < 1 / 1000000000 →
        pyIntFloat d = .pint (Dec.truncZ d))
    ∧ (∀ d : Dec, ¬ |d.toRat - (Dec.truncZ d : ℚ)| < 1 / 1000000000 →
        pyIntFloat d = .pfloat d) := by
  refine ⟨rfl, ?_, pyIntFloat_int, pyIntFloat_float⟩
  unfold Dec.toRat
  norm_num

/-- Witness for the amended C8 at the concrete float `2.5`. -/
theorem sumPdf_c8_amended_witness :
    pyIntFloat ⟨25, 1⟩ = .pfloat ⟨25, 1⟩ :=
  sumPdf_c8_amended.2.2.2 ⟨25, 1⟩ (by
    unfold Dec.toRat Dec.truncZ
    norm_num
    rw [abs_of_pos (by norm_num : (0 : ℚ) < 1 / 2)]
    norm_num)

/-- Claim C9 — **confirmed**.  The tabular value-column-sum heuristic on a
parsed CSV whose column `Value` (located case-insensitively) holds the
cells `5, 10, bad, 15` coerces the non-numeric cell to `0`, sums to `30`,
and reports the integral result as the integer `30`. -/
theorem tabularValueSum_c9 :
    tabularValueSum ⟨[("Value")], [[("5")], [("10")], [("bad")], [("15")]]⟩ =
      some (.pint 30) := by rfl

theorem submitPhase_cases (env : IterEnv) (sv : JVal) (a : PyNum)
    (st : ChainState) (acts : List ChainAction) :
    (∀ e st' acts2, submitPhase env sv a st acts = (.failed e st', acts2) →
      st'.steps = st.steps) ∧
    (∀ st' acts2, submitPhase env sv a st acts = (.goOn st', acts2) →
      st'.steps = st.steps + 1) ∧
    (∀ r acts2, submitPhase env sv a st acts = (.done r, acts2) →
      r.steps = st.steps + 1) := by
  refine ⟨?_, ?_, ?_⟩
  · intro e st' acts2 h
    unfold submitPhase at h
    try dsimp only [] at h
    repeat' split at h
    all_goals (rw [Prod.mk.injEq] at h)
    all_goals first
      | exact BodyRes.noConfusion h.1
      | (injection h.1 with h3 h4 ; try rw [← h4])
  · intro st' acts2 h
    unfold submitPhase at h
    try dsimp only [] at h
    repeat' split at h
    all_goals (rw [Prod.mk.injEq] at h)
    all_goals first
      | exact BodyRes.noConfusion h.1
      | (injection h.1 with h3 ; rw [← h3])
  · intro r acts2 h
    unfold submitPhase at h
    try dsimp only [] at h
    repeat' split at h
    all_goals (rw [Prod.mk.injEq] at h)
    all_goals first
      | exact BodyRes.noConfusion h.1
      | (injection h.1 with h3 ; rw [← h3])

theorem pageStep_cases (env : IterEnv) (html : String) (st : ChainState) :
    (∀ e st' acts2, pageStep env html st = (.failed e st', acts2) →
      st'.steps = st.steps) ∧
    (∀ st' acts2, pageStep env html st = (.goOn st', acts2) →
      st'.steps = st.steps + 1) ∧
    (∀ r acts2, pageStep env html st = (.done r, acts2) →
      r.steps = st.steps + 1) := by
  refine ⟨?_, ?_, ?_⟩
  · intro e st' acts2 h
    unfold pageStep at h
    try dsimp only [] at h
    repeat' split at h
    all_goals first
      | exact (submitPhase_cases env _ _ st _).1 e st' acts2 h
      | (rw [Prod.mk.injEq] at h ;
         first
           | exact BodyRes.noConfusion h.1
           | (injection h.1 with h3 h4 ; try rw [← h4]))
  · intro st' acts2 h
    unfold pageStep at h
    try dsimp only [] at h
    repeat' split at h
    all_goals first
      | exact (submitPhase_cases env _ _ st _).2.1 st' acts2 h
      | (rw [Prod.mk.injEq] at h ; exact BodyRes.noConfusion h.1)
  · intro r acts2 h
    unfold pageStep at h
    try dsimp only [] at h
    repeat' split at h
    all_goals first
      | exact (submitPhase_cases env _ _ st _).2.2 r acts2 h
      | (rw [Prod.mk.injEq] at h ; exact BodyRes.noConfusion h.1)

theorem stepBody_cases (env : IterEnv) (st : ChainState) :
    (∀ e st' acts2, stepBody env st = (.failed e st', acts2) →
      st'.steps = st.steps) ∧
    (∀ st' acts2, stepBody env st = (.goOn st', acts2) →
      st'.steps = st.steps + 1) ∧
    (∀ r acts2, stepBody env st = (.done r, acts2) →
      r.steps = st.steps + 1) := by
  refine ⟨?_, ?_, ?_⟩
  · intro e st' acts2 h
    unfold stepBody at h
    cases hf : env.fetched with
    | none =>
      rw [hf] at h
      simp only [] at h
      rw [Prod.mk.injEq] at h
      injection h.1 with h3 h4
      rw [← h4]
    | some html =>
      rw [hf] at h
      simp only [] at h
      rcases hps : pageStep env html st with ⟨r, acts⟩
      rw [hps] at h
      simp only [] at h
      rw [Prod.mk.injEq] at h
      exact (pageStep_cases env html st).1 e st' acts (by rw [hps, h.1])
  · intro st' acts2 h
    unfold stepBody at h
    cases hf : env.fetched with
    | none =>
      rw [hf] at h
      simp only [] at h
      rw [Prod.mk.injEq] at h
      exact BodyRes.noConfusion h.1
    | some html =>
      rw [hf] at h
      simp only [] at h
      rcases hps : pageStep env html st with ⟨r, acts⟩
      rw [hps] at h
      simp only [] at h
      rw [Prod.mk.injEq] at h
      exact (pageStep_cases env html st).2.1 st' acts (by rw [hps, h.1])
  · intro r acts2 h
    unfold stepBody at h
    cases hf : env.fetched with
    | none =>
      rw [hf] at h
      simp only [] at h
      rw [Prod.mk.injEq] at h
      exact BodyRes.noConfusion h.1
    | some html =>
      rw [hf] at h
      simp only [] at h
      rcases hps : pageStep env html st with ⟨r2, acts⟩
      rw [hps] at h
      simp only [] at h
      rw [Prod.mk.injEq] at h
      exact (pageStep_cases env html st).2.2 r acts (by rw [hps, h.1])

/-- Claim C2 — **confirmed**.  The deadline is checked strictly before
initiating each fetch and never mid-step: when the clock at the loop top
is at or past the deadline the iteration becomes `TimedOut` with no
external action (no fetch attempted) and an unchanged state, so the step
count reflects only completed submissions; when the clock is before the
deadline the iteration can never time out (no mid-step check); and the
step counter increases by exactly one per successful submission
(`goOn`/`done`) and not at all on failure.  The deadline itself is a fixed
parameter of the run — nothing ever modifies or extends it. -/
theorem chainIter_deadline (cfg : ChainCfg) (env : IterEnv)
    (st : ChainState) :
    (cfg.deadline.toRat ≤ env.now.toRat →
      chainIter cfg env st = (.timedOut st, [])) ∧
    (env.now.toRat < cfg.deadline.toRat →
      ∀ st' acts, chainIter cfg env st ≠ (.timedOut st', acts)) ∧
    (∀ st' acts, chainIter cfg env st = (.goOn st', acts) →
      st'.steps = st.steps + 1) ∧
    (∀ r acts, chainIter cfg env st = (.done r, acts) →
      r.steps = st.steps + 1) ∧
    (∀ e st' acts, chainIter cfg env st = (.failed e st', acts) →
      st'.steps = st.steps) := by
  refine ⟨?_, ?_, ?_, ?_, ?_⟩
  · intro h
    unfold chainIter
    rw [if_pos ((Dec.ble_iff cfg.deadline env.now).mpr h)]
  · intro h st' acts
    have hb : ¬ (Dec.ble cfg.deadline env.now = true) := by
      intro hble
      exact absurd ((Dec.ble_iff cfg.deadline env.now).mp hble)
        (not_le.mpr h)
    unfold chainIter
    rw [if_neg hb]
    rcases hsb : stepBody env st with ⟨r, acts2⟩
    cases r <;> simp
  · intro st' acts h
    unfold chainIter at h
    by_cases hb : Dec.ble cfg.deadline env.now = true
    · rw [if_pos hb] at h
      exact absurd h (by simp)
    · rw [if_neg hb] at h
      rcases hsb : stepBody env st with ⟨r, a2⟩
      rw [hsb] at h
      cases r with
      | failed e s => simp at h
      | done r2 => simp at h
      | goOn s =>
        simp only [] at h
        rw [Prod.mk.injEq] at h
        injection h.1 with h3
        exact (stepBody_cases env st).2.1 st' a2 (by rw [hsb, h3])
  · intro r acts h
    unfold chainIter at h
    by_cases hb : Dec.ble cfg.deadline env.now = true
    · rw [if_pos hb] at h
      exact absurd h (by simp)
    · rw [if_neg hb] at h
      rcases hsb : stepBody env st with ⟨r2, a2⟩
      rw [hsb] at h
      cases r2 with
      | failed e s => simp at h
      | goOn s => simp at h
      | done r3 =>
        simp only [] at h
        rw [Prod.mk.injEq] at h
        injection h.1 with h3
        exact (stepBody_cases env st).2.2 r a2 (by rw [hsb, h3])
  · intro e st' acts h
    unfold chainIter at h
    by_cases hb : Dec.ble cfg.deadline env.now = true
    · rw [if_pos hb] at h
      exact absurd h (by simp)
    · rw [if_neg hb] at h
      rcases hsb : stepBody env st with ⟨r2, a2⟩
      rw [hsb] at h
      cases r2 with
      | done r3 => simp at h
      | goOn s => simp at h
      | failed e2 s =>
        simp only [] at h
        rw [Prod.mk.injEq] at h
        injection h.1 with h3 h4
        exact (stepBody_cases env st).1 e st' a2 (by rw [hsb, h3, h4])

/-- Witness for C2: a concrete iteration whose clock reading `5.0` is past
the deadline `2.0` times out with no action and an unchanged state. -/
theorem chainIter_deadline_witness :
    chainIter ⟨⟨2, 0⟩⟩ ⟨⟨5, 0⟩, none, none, none, ⟨true, 200, none⟩⟩
      ⟨.jstr ("http://q/1"), 4, some 200⟩ =
      (.timedOut ⟨.jstr ("http://q/1"), 4, some 200⟩, []) :=
  (chainIter_deadline ⟨⟨2, 0⟩⟩ ⟨⟨5, 0⟩, none, none, none, ⟨true, 200, none⟩⟩
    ⟨.jstr ("http://q/1"), 4, some 200⟩).1 (by
      unfold Dec.toRat
      norm_num)

theorem chainIter_of_pageStep (cfg : ChainCfg) (env : IterEnv)
    (st : ChainState) (html : String) (res : BodyRes)
    (acts : List ChainAction)
    (hb : Dec.ble cfg.deadline env.now = false)
    (hf : env.fetched = some html)
    (hps : pageStep env html st = (res, acts)) :
    chainIter cfg env st =
      (match res with
        | .failed e s => StepRes.failed e s
        | .done r => StepRes.done r
        | .goOn s => StepRes.goOn s, .fetch st.currentUrl :: acts) := by
  unfold chainIter stepBody
  rw [if_neg (by simp [hb]), hf]
  simp only []
  have h1 : (pageStep env html st).1 = res := by rw [hps]
  have h2 : (pageStep env html st).2 = acts := by rw [hps]
  rw [h1, h2]
  cases res <;> rfl

theorem pageStep_missingSubmit (env : IterEnv) (html : String)
    (st : ChainState)
    (h : truthyOptJ (resolveSubmitVal
      (normalizeWs (stripTags (tryDecodeB64Blocks html)))
      (tryDecodeB64Blocks html)) = false) :
    pageStep env html st = (.failed .submitUrlMissing st, []) := by
  unfold pageStep
  dsimp only []
  rw [if_pos h]

theorem pageStep_solveErr (env : IterEnv) (html : String) (st : ChainState)
    (e : ChainErr) (acts : List ChainAction)
    (htr : truthyOptJ (resolveSubmitVal
      (normalizeWs (stripTags (tryDecodeB64Blocks html)))
      (tryDecodeB64Blocks html)) = true)
    (hsolve : solveAnswer env (normalizeWs (stripTags (tryDecodeB64Blocks html)))
      html (tryDecodeB64Blocks html) = (.err e, acts)) :
    pageStep env html st = (.failed e st, acts) := by
  unfold pageStep
  dsimp only []
  rw [if_neg (by simp [htr])]
  rcases hsv : resolveSubmitVal
      (normalizeWs (stripTags (tryDecodeB64Blocks html)))
      (tryDecodeB64Blocks html) with _ | v
  · rw [hsv] at htr
    simp [truthyOptJ] at htr
  · simp only []
    rw [hsolve]

/-- Claim C1 counterexample — the chain does **not** continue whenever the
response body is a JSON object merely containing a `url` field: with the
body `obj(url = "")` the field is present, yet the orchestrator ends the
chain with the `Done` report (Python's `if next_url:` is a truthiness
test, so an empty-string continuation URL terminates the chain). -/
theorem chainContinuation_counterexample :
    (nextUrlVal (.jobj [("url", .jstr "")])).isSome = true ∧
    (chainIter lateCfg
      (okEnv (rowsPage ("http://q/s1")) (some (.jobj [("url", .jstr "")])))
      (initialState ("http://q/1"))).1 =
      .done ⟨1, .jstr ("http://q/1"), some 200⟩ := ⟨rfl, rfl⟩

/-- Claim C1 — **corrected**.  The concrete chain scenario holds: with
submission responses `obj(url = u2)`, `obj(url = u3)` and `obj()` the
orchestrator ends in `Done` reporting `steps = 3`, the last URL and the
last status code.  The general continuation rule is amended: after a
successful submission the chain continues if and only if the parsed body
is a JSON object containing a `url` field whose value is **truthy** (a
`url` field holding `""`, `null`, `0` or `false` ends the chain with the
`ok: true` report instead). -/
theorem chainContinuation_amended :
    (solveChain lateCfg
      [okEnv (rowsPage ("http://q/s1"))
        (some (.jobj [("url", .jstr ("http://q/2"))])),
       okEnv (rowsPage ("http://q/s2"))
        (some (.jobj [("url", .jstr ("http://q/3"))])),
       okEnv (rowsPage ("http://q/s3")) (some (.jobj []))]
      (initialState ("http://q/1"))).1 =
      .done ⟨3, .jstr ("http://q/3"), some 200⟩
    ∧ (∀ (env : IterEnv) (sv : JVal) (a : PyNum) (st : ChainState)
        (acts : List ChainAction) (data : JVal),
        env.resp.transportOk = true → 200 ≤ env.resp.status →
        env.resp.status < 300 → env.resp.body = some data →
        ((∃ st' acts2, submitPhase env sv a st acts = (.goOn st', acts2)) ↔
          (∃ v, nextUrlVal data = some v ∧ jTruthy v = true)))
    ∧ (∀ (env : IterEnv) (sv : JVal) (a : PyNum) (st : ChainState)
        (acts : List ChainAction) (data : JVal) (r : ChainResult)
        (acts2 : List ChainAction),
        env.resp.transportOk = true → 200 ≤ env.resp.status →
        env.resp.status < 300 → env.resp.body = some data →
        submitPhase env sv a st acts = (.done r, acts2) →
        r = ⟨st.steps + 1, st.currentUrl, some env.resp.status⟩) := by
  refine ⟨rfl, ?_, ?_⟩
  · intro env sv a st acts data h1 h2 h3 h4
    constructor
    · rintro ⟨st', acts2, h⟩
      unfold submitPhase at h
      dsimp only [] at h
      rw [if_neg (by simp [h1])] at h
      rw [if_neg (not_not_intro ⟨h2, h3⟩)] at h
      rw [h4] at h
      simp only [] at h
      rcases hnv : nextUrlVal data with _ | v
      · rw [hnv] at h
        simp only [] at h
        rw [Prod.mk.injEq] at h
        exact BodyRes.noConfusion h.1
      · rw [hnv] at h
        simp only [] at h
        by_cases ht : jTruthy v = true
        · exact ⟨v, rfl, ht⟩
        · rw [if_neg ht] at h
          rw [Prod.mk.injEq] at h
          exact BodyRes.noConfusion h.1
    · rintro ⟨v, hnv, ht⟩
      refine ⟨⟨v, st.steps + 1, some env.resp.status⟩,
        acts ++ [.post sv a], ?_⟩
      unfold submitPhase
      dsimp only []
      rw [if_neg (by simp [h1])]
      rw [if_neg (not_not_intro ⟨h2, h3⟩)]
      rw [h4]
      simp only []
      rw [hnv]
      simp only []
      rw [if_pos ht]
  · intro env sv a st acts data r acts2 h1 h2 h3 h4 h
    unfold submitPhase at h
    dsimp only [] at h
    rw [if_neg (by simp [h1])] at h
    rw [if_neg (not_not_intro ⟨h2, h3⟩)] at h
    rw [h4] at h
    simp only [] at h
    rcases hnv : nextUrlVal data with _ | v
    · rw [hnv] at h
      simp only [] at h
      rw [Prod.mk.injEq] at h
      injection h.1 with h5
      exact h5.symm
    · rw [hnv] at h
      simp only [] at h
      by_cases ht : jTruthy v = true
      · rw [if_pos ht] at h
        rw [Prod.mk.injEq] at h
        exact BodyRes.noConfusion h.1
      · rw [if_neg ht] at h
        rw [Prod.mk.injEq] at h
        injection h.1 with h5
        exact h5.symm

/-- Witness for the amended C1: a concrete successful submission whose
body holds a truthy `url` continues the chain. -/
theorem chainContinuation_amended_witness :
    ∃ st' acts2,
      submitPhase (okEnv ("") (some (.jobj [("url", .jstr ("http://q/2"))])))
        (.jstr ("http://q/s")) (.pint 1) (initialState ("http://q/1")) [] =
        (.goOn st', acts2) :=
  (chainContinuation_amended.2.1
    (okEnv ("") (some (.jobj [("url", .jstr ("http://q/2"))])))
    (.jstr ("http://q/s")) (.pint 1) (initialState ("http://q/1")) []
    (.jobj [("url", .jstr ("http://q/2"))])
    rfl (by decide) (by decide) rfl).mpr
    ⟨.jstr ("http://q/2"), rfl, rfl⟩

theorem solveAnswer_pdfErr (env : IterEnv) (text html expanded : String)
    (col : String) (pg : ℕ) (u : String) (us : List String)
    (pdfOpt : Option Pdf)
    (hm : pdfTaskMatch text = some (col, pg))
    (hl : findPdfLinks expanded = u :: us)
    (hp : env.pdfFetch = some pdfOpt)
    (hs : sumValueColumnPdf pdfOpt (pyStrip col) pg = none) :
    solveAnswer env text html expanded =
      (.err .pdfSumFailed, [.download u]) := by
  have hpdf : solvePdfH env text expanded =
      (.err .pdfSumFailed, [.download u]) := by
    unfold solvePdfH
    rw [hm]
    simp only []
    rw [hl]
    simp only []
    rw [hp]
    simp only []
    rw [hs]
  unfold solveAnswer
  rw [hpdf]

set_option maxRecDepth 4000 in
/-- Claim C3 counterexample — a heuristic-internal parse failure is
**chain-fatal**, not "this heuristic does not apply": on a page whose
text matches the PDF-task pattern, whose PDF yields no sum (no tables, no
matching text lines), and which also contains a `how many rows` task that
the next heuristic would solve, the chain halts with the
`Failed to compute sum from PDF` error instead of trying the later
heuristic. -/
theorem pdfHeuristicFatal_counterexample :
    (pdfTaskMatch (normalizeWs (stripTags
      (tryDecodeB64Blocks pdfTrapPage)))).isSome = true ∧
    containsCI (String.data ("how many rows"))
      (normalizeWs (stripTags (tryDecodeB64Blocks pdfTrapPage))).data =
      true ∧
    (chainIter lateCfg pdfTrapEnv (initialState ("http://q/1"))).1 =
      .failed .pdfSumFailed (initialState ("http://q/1")) := ⟨rfl, rfl, rfl⟩

/-- Claim C3 — **corrected**.  Failures are swallowed only at the parsing
site: `sum_value_column_pdf_pdfplumber` returns `None` instead of raising
when the document cannot be read, and a malformed embedded JSON block
makes `find_embedded_json_payload` return `None` so the caller falls back.
But once the PDF heuristic's task pattern has matched, a `None` sum is
chain-fatal (`RuntimeError`): the orchestrator stops and later heuristics
are **not** tried, contrary to the claim. -/
theorem pdfHeuristicFatal_amended :
    (∀ col pg, sumValueColumnPdf none col pg = none)
    ∧ (∀ (s : String) (g : List Char), findPreJsonList s.data = some g →
        jsonLoads (String.mk g) = none → findEmbeddedJsonPayload s = none)
    ∧ (∀ (cfg : ChainCfg) (env : IterEnv) (st : ChainState)
        (html col : String) (pg : ℕ) (u : String) (us : List String)
        (pdfOpt : Option Pdf),
        Dec.ble cfg.deadline env.now = false →
        env.fetched = some html →
        truthyOptJ (resolveSubmitVal
          (normalizeWs (stripTags (tryDecodeB64Blocks html)))
          (tryDecodeB64Blocks html)) = true →
        pdfTaskMatch (normalizeWs (stripTags (tryDecodeB64Blocks html))) =
          some (col, pg) →
        findPdfLinks (tryDecodeB64Blocks html) = u :: us →
        env.pdfFetch = some pdfOpt →
        sumValueColumnPdf pdfOpt (pyStrip col) pg = none →
        chainIter cfg env st =
          (.failed .pdfSumFailed st,
            [.fetch st.currentUrl, .download u])) := by
  refine ⟨fun col pg => rfl, ?_, ?_⟩
  · intro s g h1 h2
    unfold findEmbeddedJsonPayload
    rw [h1]
    simp only []
    exact h2
  · intro cfg env st html col pg u us pdfOpt hb hf htr hm hl hp hs
    have hsolve := solveAnswer_pdfErr env
      (normalizeWs (stripTags (tryDecodeB64Blocks html))) html
      (tryDecodeB64Blocks html) col pg u us pdfOpt hm hl hp hs
    have hps := pageStep_solveErr env html st .pdfSumFailed
      [.download u] htr hsolve
    have hres := chainIter_of_pageStep cfg env st html
      (.failed .pdfSumFailed st) [.download u] hb hf hps
    simpa using hres

set_option maxRecDepth 4000 in
/-- Witness for the amended C3, at the concrete trap page. -/
theorem pdfHeuristicFatal_amended_witness :
    chainIter lateCfg pdfTrapEnv (initialState ("http://q/1")) =
      (.failed .pdfSumFailed (initialState ("http://q/1")),
        [.fetch (.jstr ("http://q/1")), .download ("http://q/f.pdf")]) :=
  pdfHeuristicFatal_amended.2.2 lateCfg pdfTrapEnv
    (initialState ("http://q/1")) pdfTrapPage ("value") 1
    ("http://q/f.pdf") [] (some [⟨[], ""⟩])
    rfl rfl rfl rfl rfl rfl rfl

theorem tabularValueSum_none (tb : Table)
    (h : lastValueIdx tb.cols = none) : tabularValueSum tb = none := by
  unfold tabularValueSum
  rw [h]

theorem solveAnswer_noValue (env : IterEnv) (text html expanded : String)
    (u : String) (us : List String) (tb : Table)
    (hm : pdfTaskMatch text = none)
    (hrows : containsCI (String.data ("how many rows")) text.data = false)
    (hl : findDataLinks expanded = u :: us)
    (hd : env.dataFetch = some (some tb))
    (hlv : lastValueIdx tb.cols = none) :
    solveAnswer env text html expanded =
      (.err .noSolverMatched, [.download u]) := by
  have hpdf : solvePdfH env text expanded = (.ans none, []) := by
    unfold solvePdfH
    rw [hm]
  unfold solveAnswer
  rw [hpdf]
  dsimp only []
  rw [if_neg (by simp [hrows])]
  rw [hl]
  simp only []
  rw [hd]
  simp only []
  rw [tabularValueSum_none tb hlv]
  simp

/-- Claim C10 — **confirmed**.  When neither of the first two heuristics
applies and the page has a csv/json/xlsx link but the downloaded and
parsed table has no column named `value` (case-insensitively), the answer
stays absent and the step fails with the `No solver matched` error; no
default answer is submitted (the action trace holds only the fetch and
the download — no POST). -/
theorem noValueColumn_noSolver (cfg : ChainCfg) (env : IterEnv)
    (st : ChainState) (html : String) (u : String) (us : List String)
    (tb : Table)
    (hb : Dec.ble cfg.deadline env.now = false)
    (hf : env.fetched = some html)
    (htr : truthyOptJ (resolveSubmitVal
      (normalizeWs (stripTags (tryDecodeB64Blocks html)))
      (tryDecodeB64Blocks html)) = true)
    (hm : pdfTaskMatch (normalizeWs (stripTags (tryDecodeB64Blocks html))) =
      none)
    (hrows : containsCI (String.data ("how many rows"))
      (normalizeWs (stripTags (tryDecodeB64Blocks html))).data = false)
    (hl : findDataLinks (tryDecodeB64Blocks html) = u :: us)
    (hd : env.dataFetch = some (some tb))
    (hlv : lastValueIdx tb.cols = none) :
    chainIter cfg env st =
      (.failed .noSolverMatched st, [.fetch st.currentUrl, .download u]) := by
  have hsolve := solveAnswer_noValue env
    (normalizeWs (stripTags (tryDecodeB64Blocks html))) html
    (tryDecodeB64Blocks html) u us tb hm hrows hl hd hlv
  have hps := pageStep_solveErr env html st .noSolverMatched
    [.download u] htr hsolve
  have hres := chainIter_of_pageStep cfg env st html
    (.failed .noSolverMatched st) [.download u] hb hf hps
  simpa using hres

/-- Witness for C10 at the concrete CSV-only page. -/
theorem noValueColumn_noSolver_witness :
    chainIter lateCfg csvOnlyEnv (initialState ("http://q/1")) =
      (.failed .noSolverMatched (initialState ("http://q/1")),
        [.fetch (.jstr ("http://q/1")), .download ("http://q/d.csv")]) :=
  noValueColumn_noSolver lateCfg csvOnlyEnv (initialState ("http://q/1"))
    csvOnlyPage ("http://q/d.csv") [] noValueTable
    rfl rfl rfl rfl rfl rfl rfl rfl

/-- Claim C4 — **confirmed**.  Submit-URL resolution tries the
natural-language text directive first (case-insensitive, first match);
only when it yields nothing does it fall back to the `submit` field of the
embedded JSON block; and when the resolved value is empty/falsy the step
fails with the missing-instruction error, which the endpoint surfaces as
an `ok: false` failure report rather than an unhandled fault. -/
theorem resolveSubmit_c4 :
    (∀ (text expanded u : String), extractSubmitUrl text = some u →
      resolveSubmitVal text expanded = some (.jstr u))
    ∧ (∀ (text expanded : String), extractSubmitUrl text = none →
      resolveSubmitVal text expanded =
        (match findEmbeddedJsonPayload expanded with
          | some (.jobj kvs) => jGet kvs ("submit")
          | _ => none))
    ∧ (∀ (cfg : ChainCfg) (env : IterEnv) (st : ChainState) (html : String),
        Dec.ble cfg.deadline env.now = false →
        env.fetched = some html →
        truthyOptJ (resolveSubmitVal
          (normalizeWs (stripTags (tryDecodeB64Blocks html)))
          (tryDecodeB64Blocks html)) = false →
        chainIter cfg env st =
          (.failed .submitUrlMissing st, [.fetch st.currentUrl]) ∧
        endpointWrap (solveChain cfg [env] st).1 =
          .okFalse .submitUrlMissing) := by
  refine ⟨?_, ?_, ?_⟩
  · intro text expanded u h
    unfold resolveSubmitVal
    rw [h]
  · intro text expanded h
    unfold resolveSubmitVal
    rw [h]
  · intro cfg env st html hb hf htr
    have hps := pageStep_missingSubmit env html st htr
    have hres := chainIter_of_pageStep cfg env st html
      (.failed .submitUrlMissing st) [] hb hf hps
    have hiter : chainIter cfg env st =
        (.failed .submitUrlMissing st, [.fetch st.currentUrl]) := by
      simpa using hres
    refine ⟨hiter, ?_⟩
    unfold solveChain
    rw [hiter]
    rfl

/-- Witness for C4: a page with no extractable submission target fails the
step with the missing-instruction error and the endpoint reports
`ok: false`. -/
theorem resolveSubmit_c4_witness :
    chainIter lateCfg noSubmitEnv (initialState ("http://q/1")) =
      (.failed .submitUrlMissing (initialState ("http://q/1")),
        [.fetch (.jstr ("http://q/1"))]) ∧
    endpointWrap (solveChain lateCfg [noSubmitEnv]
      (initialState ("http://q/1"))).1 = .okFalse .submitUrlMissing :=
  resolveSubmit_c4.2.2 lateCfg noSubmitEnv (initialState ("http://q/1"))
    noSubmitPage rfl rfl rfl

end QuizSolver
